import Mathlib

set_option autoImplicit false

namespace OpenapiCodegen

/-!
Shallow embedding of the IR-building core of the svix/openapi-codegen repository.

The repository contains two parallel implementations of the IR builder:
* a "v1" implementation in `src/api.rs` and `src/types.rs` (resource/operation
  extraction, `FieldType` with a plain `SchemaRef(String)` variant), and
* a "v2" implementation in `src/api/mod.rs`, `src/api/types.rs` and
  `src/api/struct_enum.rs` (`FieldType::SchemaRef { name, inner }`, the `"Data"`
  carve-out, and the `inline_struct_enum` discriminated-union inference).

Definitions suffixed `V1` embed the former, definitions suffixed `V2` (or
unsuffixed ones in the `V2` sections) embed the latter.  JSON-schema data
(`schemars::schema::*`) and JSON values (`serde_json::Value`) are shared by both.

Rust's `anyhow::Result` is embedded as `Except String` (error messages are kept
close to the source but without interpolated data).  Code paths that `panic!` /
`assert!` / `unimplemented!` (aborting the whole run) versus ones that merely
skip a unit with a log are distinguished where a claim depends on it, via the
`Halt` error type (`skip` = drop one unit with a log, `fatal` = abort the run).
-/

/-- JSON values, `serde_json::Value`.  Numbers are restricted to integers, the
only numeric values the embedded code paths inspect (via `as_i64`). -/
inductive Json where
  | null
  | b (b : Bool)
  | num (n : Int)
  | str (s : String)
  | arr (items : List Json)
  | obj (entries : List (String × Json))

/-- Model of `serde_json::Number::as_i64`: the value as an `i64` if it fits. -/
def Json.asI64 : Json → Option Int
  | .num n => if -(2 ^ 63) ≤ n ∧ n < 2 ^ 63 then some n else none
  | _ => none

/-- Model of `serde_json::Value::as_str`. -/
def Json.asStr : Json → Option String
  | .str s => some s
  | _ => none

/-- Model of `serde_json::Value::as_bool`. -/
def Json.asBool : Json → Option Bool
  | .b v => some v
  | _ => none

/-- Model of `serde_json::Value::as_array`. -/
def Json.asArray : Json → Option (List Json)
  | .arr items => some items
  | _ => none

/-- Keyed lookup in an association list; models `Map::get` on the string-keyed
maps (`serde_json::Map`, `IndexMap`, `BTreeMap`) used by the source.  All those
maps have unique keys, so only the first match matters. -/
def lookupKV {α : Type} (k : String) : List (String × α) → Option α
  | [] => none
  | (k', v) :: tl => if k' = k then some v else lookupKV k tl

/-- Model of `schemars::schema::InstanceType`. -/
inductive InstanceType where
  | null
  | boolean
  | object
  | array
  | number
  | string
  | integer
  deriving DecidableEq

/-- Model of `schemars::schema::SingleOrVec`. -/
inductive SingleOrVec (α : Type) where
  | single (x : α)
  | vec (xs : List α)

/-- Model of `schemars::schema::Metadata` (only the fields the source reads). -/
structure Metadata where
  description : Option String := none
  default : Option Json := none
  deprecated : Bool := false

/-- Model of `schemars::schema::ObjectValidation`, parametric in the schema type
to break the recursive knot (instantiated at `Schema` below).  `properties` is a
`BTreeMap<String, Schema>` in the source, i.e. iterated in ascending key order;
it is embedded as an association list that must be listed in that order.
`required` is a `BTreeSet<String>`. -/
structure ObjectValidationG (σ : Type) where
  additionalProperties : Option σ := none
  maxProperties : Option Nat := none
  minProperties : Option Nat := none
  properties : List (String × σ) := []
  patternProperties : List (String × σ) := []
  propertyNames : Option σ := none
  required : List String := []

/-- Model of `schemars::schema::ArrayValidation` (fields the source reads). -/
structure ArrayValidationG (σ : Type) where
  items : Option (SingleOrVec σ) := none
  additionalItems : Option σ := none
  uniqueItems : Option Bool := none

/-- Model of `schemars::schema::SubschemaValidation`. -/
structure SubschemaValidationG (σ : Type) where
  allOf : Option (List σ) := none
  anyOf : Option (List σ) := none
  oneOf : Option (List σ) := none
  notSchema : Option σ := none
  ifSchema : Option σ := none
  thenSchema : Option σ := none
  elseSchema : Option σ := none

/-- Model of `schemars::schema::SchemaObject` (the fields the source reads).
`extensions` holds vendor extensions such as `x-enum-varnames`, `nullable`,
`example`, `x-hidden`. -/
structure SchemaObjectG (σ : Type) where
  metadata : Option Metadata := none
  instanceType : Option (SingleOrVec InstanceType) := none
  format : Option String := none
  enumValues : Option (List Json) := none
  constValue : Option Json := none
  subschemas : Option (SubschemaValidationG σ) := none
  array : Option (ArrayValidationG σ) := none
  object : Option (ObjectValidationG σ) := none
  reference : Option String := none
  extensions : List (String × Json) := []

/-- Model of `schemars::schema::Schema`: either a boolean schema or an object
schema. -/
inductive Schema where
  | bool (b : Bool)
  | obj (o : SchemaObjectG Schema)

abbrev SchemaObject := SchemaObjectG Schema
abbrev ObjectValidation := ObjectValidationG Schema
abbrev ArrayValidation := ArrayValidationG Schema
abbrev SubschemaValidation := SubschemaValidationG Schema

/-- Model of `get_schema_name` (defined identically in `src/api/mod.rs` and in
`src/util.rs`): strip the `#/components/schemas/` prefix from a `$ref`; a
missing input or a missing prefix yields `None` (the latter with a warning
log). -/
def getSchemaName (maybeRef : Option String) : Option String :=
  match maybeRef with
  | none => none
  | some r =>
      if "#/components/schemas/".toList.isPrefixOf r.toList then
        some (r.drop "#/components/schemas/".length)
      else
        none

/-!
## The v2 intermediate representation (`src/api/types.rs`)

`Type`, `TypeData`, `StructEnumRepr`, `SimpleVariant`, `EnumVariantType`,
`Field` and `FieldType` are mutually recursive in the source
(`FieldType::SchemaRef` and `EnumVariantType::Ref` carry an
`inner: Option<Type>`), so they are embedded as one mutual inductive family.
`Arc` indirections are dropped; `i64` becomes `Int`.
-/

mutual

/-- Model of `Type` from `src/api/types.rs`. -/
inductive TypeV2 where
  | mk (name : String) (description : Option String) (deprecated : Bool) (data : TypeDataV2)

/-- Model of `TypeData` from `src/api/types.rs`. -/
inductive TypeDataV2 where
  | struct (fields : List FieldV2)
  | stringEnum (values : List String)
  | integerEnum (variants : List (String × Int))
  | structEnum (discriminatorField : String) (repr : StructEnumReprV2) (fields : List FieldV2)

/-- Model of `StructEnumRepr` from `src/api/types.rs`. -/
inductive StructEnumReprV2 where
  | adjacentlyTagged (contentField : String) (variants : List SimpleVariantV2)

/-- Model of `SimpleVariant` from `src/api/types.rs`. -/
inductive SimpleVariantV2 where
  | mk (name : String) (content : EnumVariantTypeV2)

/-- Model of `EnumVariantType` from `src/api/types.rs`. -/
inductive EnumVariantTypeV2 where
  | struct (fields : List FieldV2)
  | ref (schemaRef : Option String) (inner : Option TypeV2)

/-- Model of `Field` from `src/api/types.rs`. -/
inductive FieldV2 where
  | mk (name : String) (type : FieldTypeV2) (default : Option Json)
      (description : Option String) (required : Bool) (nullable : Bool)
      (deprecated : Bool) (exampleVal : Option Json)

/-- Model of `FieldType` from `src/api/types.rs`. -/
inductive FieldTypeV2 where
  | bool
  | int16
  | uint16
  | int32
  | uint32
  | int64
  | uint64
  | string
  | dateTime
  | uri
  | jsonObject
  | list (inner : FieldTypeV2)
  | set (inner : FieldTypeV2)
  | map (valueTy : FieldTypeV2)
  | schemaRef (name : String) (inner : Option TypeV2)
  | stringConst (value : String)

end

/-- Projection of the `name` field of `TypeV2`. -/
def TypeV2.name : TypeV2 → String
  | .mk n _ _ _ => n

/-- Projection of the `data` field of `TypeV2`. -/
def TypeV2.data : TypeV2 → TypeDataV2
  | .mk _ _ _ d => d

/-- Projection of the `name` field of `FieldV2`. -/
def FieldV2.name : FieldV2 → String
  | .mk n _ _ _ _ _ _ _ => n

/-- Projection of the `type` field of `FieldV2`. -/
def FieldV2.type : FieldV2 → FieldTypeV2
  | .mk _ t _ _ _ _ _ _ => t

/-- Projection of the `name` field of `SimpleVariantV2`. -/
def SimpleVariantV2.name : SimpleVariantV2 → String
  | .mk n _ => n

/-- Projection of the `content` field of `SimpleVariantV2`. -/
def SimpleVariantV2.content : SimpleVariantV2 → EnumVariantTypeV2
  | .mk _ c => c

/-- Size bound used to justify termination of `FieldTypeV2.fromSchema` /
`fromSchemaObject`: a single array item schema is smaller than the schema
object containing it. -/
theorem sizeOf_lt_of_items_single (o : SchemaObject) (arr : ArrayValidation) (inner : Schema)
    (h1 : o.array = some arr) (h2 : arr.items = some (SingleOrVec.single inner)) :
    sizeOf inner < sizeOf o := by
  cases o with
  | mk m it f ev cv sub a ob r ex =>
    cases arr with
    | mk items addItems uniq =>
      dsimp only [SchemaObjectG.array] at h1
      dsimp only [ArrayValidationG.items] at h2
      subst h1
      subst h2
      simp
      omega

/-- Size bound used to justify termination of `FieldTypeV2.fromSchema` /
`fromSchemaObject`: an `additionalProperties` schema object is smaller than the
schema object containing it. -/
theorem sizeOf_lt_of_additional_properties (o : SchemaObject) (objv : ObjectValidation)
    (so : SchemaObject) (h1 : o.object = some objv)
    (h2 : objv.additionalProperties = some (Schema.obj so)) :
    sizeOf so < sizeOf o := by
  cases o with
  | mk m it f ev cv sub a ob r ex =>
    cases objv with
    | mk addProps maxP minP props patProps propNames req =>
      dsimp only [SchemaObjectG.object] at h1
      dsimp only [ObjectValidationG.additionalProperties] at h2
      subst h1
      subst h2
      simp
      omega

/-- Model of the final `ensure!` checks at the end of
`FieldType::from_schema_object` (`src/api/types.rs`): paths that did not hit the
early `return` for string constants must not carry `const` or `enum` values. -/
def ensureNoConstEnum (o : SchemaObject) (result : FieldTypeV2) : Except String FieldTypeV2 :=
  if o.constValue.isSome then .error "unsupported const_value"
  else if o.enumValues.isSome then .error "unsupported enum_values"
  else .ok result

mutual

/-- Model of `FieldType::from_schema` from `src/api/types.rs`. -/
def FieldTypeV2.fromSchema (s : Schema) : Except String FieldTypeV2 :=
  match s with
  | .bool _ => .error "found unexpected true schema"
  | .obj o => FieldTypeV2.fromSchemaObject o
termination_by sizeOf s
decreasing_by
  simp_wf

/-- Model of `FieldType::from_schema_object` from `src/api/types.rs`.  The Rust
function computes `result` in a big match whose string-typed branch may
early-return a `StringConst`, and then checks `const_value` / `enum_values` are
absent; here every non-early-return result is threaded through
`ensureNoConstEnum`, which performs exactly those two final checks. -/
def FieldTypeV2.fromSchemaObject (o : SchemaObject) : Except String FieldTypeV2 :=
  match o.instanceType with
  | some (.single ty) =>
    match ty with
    | .boolean => ensureNoConstEnum o .bool
    | .integer =>
      match o.format with
      | some "int16" => ensureNoConstEnum o .int16
      | some "uint16" => ensureNoConstEnum o .uint16
      | some "int32" => ensureNoConstEnum o .int32
      | some "uint32" => ensureNoConstEnum o .uint32
      | some "int" => ensureNoConstEnum o .int64
      | some "int64" => ensureNoConstEnum o .int64
      | some "uint" => ensureNoConstEnum o .uint64
      | some "uint64" => ensureNoConstEnum o .uint64
      | _ => .error "unsupported integer format"
    | .string =>
      match o.constValue with
      | some value =>
        match value with
        | .str v => .ok (.stringConst v)
        | _ => .error "unsupported: non-string constant as field type"
      | none =>
        match o.enumValues with
        | some values =>
          match values with
          | [value] =>
            match value with
            | .str v => .ok (.stringConst v)
            | _ => .error "unsupported: non-string constant as field type"
          | _ => .error "unsupported: enum as field type"
        | none =>
          match o.format with
          | none => ensureNoConstEnum o .string
          | some "color" => ensureNoConstEnum o .string
          | some "email" => ensureNoConstEnum o .string
          | some "date-time" => ensureNoConstEnum o .dateTime
          | some "uri" => ensureNoConstEnum o .uri
          | some _ => .error "unsupported string format"
    | .array =>
      match h1 : o.array with
      | none => .error "array type must have array props"
      | some arr =>
        if arr.additionalItems.isSome then .error "not supported"
        else
          match h2 : arr.items with
          | none => .error "array type must have items prop"
          | some (.vec _) => .error "unsupported multi-typed array parameter"
          | some (.single inner) =>
            match FieldTypeV2.fromSchema inner with
            | .error e => .error e
            | .ok innerTy =>
              if arr.uniqueItems = some true then ensureNoConstEnum o (.set innerTy)
              else ensureNoConstEnum o (.list innerTy)
    | .object =>
      match h3 : o.object with
      | none => .error "unsupported: object type without further validation"
      | some objv =>
        match h4 : objv.additionalProperties with
        | none => .error "unsupported: object field type without additional_properties"
        | some addProps =>
          if objv.maxProperties.isSome then .error "unsupported: max_properties"
          else if objv.minProperties.isSome then .error "unsupported: min_properties"
          else if !objv.properties.isEmpty then .error "unsupported: properties on field type"
          else if !objv.patternProperties.isEmpty then .error "unsupported: pattern_properties"
          else if objv.propertyNames.isSome then .error "unsupported: property_names"
          else if !objv.required.isEmpty then .error "unsupported: required on field type"
          else
            match h5 : addProps with
            | .bool true => ensureNoConstEnum o .jsonObject
            | .bool false => .error "unsupported additional_properties false"
            | .obj so =>
              match FieldTypeV2.fromSchemaObject so with
              | .error e => .error e
              | .ok valueTy => ensureNoConstEnum o (.map valueTy)
    | _ => .error "unsupported type"
  | some (.vec _) => .error "unsupported multi-typed parameter"
  | none =>
    match getSchemaName o.reference with
    | some name => ensureNoConstEnum o (.schemaRef name none)
    | none => .error "unsupported type-less parameter"
termination_by sizeOf o
decreasing_by
  · simp_wf
    exact sizeOf_lt_of_items_single o arr inner h1 h2
  · simp_wf
    exact sizeOf_lt_of_additional_properties o objv so h3 (h5 ▸ h4)

end

/-- Model of `Field::from_schema` from `src/api/types.rs`. -/
def FieldV2.fromSchema (name : String) (s : Schema) (required : Bool) : Except String FieldV2 :=
  match s with
  | .bool _ => .error "unsupported bool schema"
  | .obj o =>
    let exampleVal := lookupKV "example" o.extensions
    let metadata := o.metadata.getD {}
    let nullable := ((lookupKV "nullable" o.extensions).bind Json.asBool).getD false
    match FieldTypeV2.fromSchemaObject o with
    | .error e => .error e
    | .ok ty =>
        .ok (.mk name ty metadata.default metadata.description required nullable
          metadata.deprecated exampleVal)

/-- Model of the first half of `TypeData::from_object_schema` from
`src/api/types.rs`: the `ensure!` checks on the object validation followed by
the conversion of `properties` into `Field`s.  Calling
`TypeData::from_object_schema(obj, None)` in the source is exactly this
computation with the result wrapped in `TypeData::Struct`. -/
def structFieldsChecked (obj : ObjectValidation) : Except String (List FieldV2) :=
  if obj.additionalProperties.isSome then .error "additionalProperties not yet supported"
  else if obj.maxProperties.isSome then .error "unsupported: maxProperties"
  else if obj.minProperties.isSome then .error "unsupported: minProperties"
  else if !obj.patternProperties.isEmpty then .error "unsupported: patternProperties"
  else if obj.propertyNames.isSome then .error "unsupported: propertyNames"
  else
    obj.properties.mapM fun p => FieldV2.fromSchema p.1 p.2 (obj.required.contains p.1)

/-!
## Discriminated-union inference (`src/api/struct_enum.rs`)
-/

/-- Model of `get_schema_obj` from `src/api/struct_enum.rs`. -/
def getSchemaObj (s : Schema) : Except String SchemaObject :=
  match s with
  | .bool _ => .error "unsupported bool schema"
  | .obj o => .ok o

/-- Model of `get_obj_validation` from `src/api/struct_enum.rs`. -/
def getObjValidation (s : Schema) : Except String ObjectValidation := do
  let o ← getSchemaObj s
  match o.object with
  | some ov => pure ov
  | none => throw "unsupported: object type without further validation"

/-- Loop body of `get_discriminator` from `src/api/struct_enum.rs`: walk the
properties (in `BTreeMap` order), remembering the last property whose schema
carries exactly one `enum` value; that value must be a string. -/
def getDiscriminatorLoop (props : List (String × Schema)) (fieldName dvalue : Option String) :
    Except String (Option String × Option String) :=
  match props with
  | [] => .ok (fieldName, dvalue)
  | (pName, p) :: rest => do
    let so ← getSchemaObj p
    match so.enumValues with
    | some [v] =>
      match v.asStr with
      | some s => getDiscriminatorLoop rest (some pName) (some s)
      | none => throw "Expected discriminator field name to be a string"
    | _ => getDiscriminatorLoop rest fieldName dvalue

/-- Model of `get_discriminator` from `src/api/struct_enum.rs`: returns the
discriminator property name and its (single, string) enum value. -/
def getDiscriminator (obj : ObjectValidation) : Except String (String × String) := do
  let (fn, dv) ← getDiscriminatorLoop obj.properties none none
  match fn with
  | none => throw "Unable to figure out discriminator field name"
  | some fieldName =>
    match dv with
    | none => throw "Unable to figure out discriminator"
    | some d => pure (fieldName, d)

/-- Model of `get_content` from `src/api/struct_enum.rs`: the first property
(in `BTreeMap` order) with an inline object schema or a `$ref` becomes the
variant content.  `TypeData::from_object_schema(obj, None)` always produces a
`Struct`, so the source's `else bail!("Expected obj to be a struct")` branch is
unreachable and does not appear here.  The `.unwrap()` on `get_schema_name` in
the source panics when the `$ref` lacks the components prefix; that is embedded
as an error. -/
def getContentLoop (props : List (String × Schema)) : Except String (String × EnumVariantTypeV2) :=
  match props with
  | [] => .error "Failed to find content on struct enum"
  | (pName, p) :: rest => do
    let so ← getSchemaObj p
    match so.object with
    | some obj => do
      let fields ← structFieldsChecked obj
      pure (pName, EnumVariantTypeV2.struct fields)
    | none =>
      match so.reference with
      | some schemaRef =>
        match getSchemaName (some schemaRef) with
        | some n => pure (pName, .ref (some n) none)
        | none => throw "panic: missing components prefix on variant content ref"
      | none => getContentLoop rest

/-- Model of `get_content` from `src/api/struct_enum.rs` (entry point). -/
def getContent (variant : ObjectValidation) : Except String (String × EnumVariantTypeV2) :=
  getContentLoop variant.properties

/-- Model of `SameString::update` from `src/api/struct_enum.rs`: set the value
the first time, and require every later update to agree. -/
def sameStringUpdate (cur : Option String) (val : String) : Except String (Option String) :=
  match cur with
  | some c => if c = val then .ok (some c) else .error "ensure failed: mismatched field"
  | none => .ok (some val)

/-- Loop body of `TypeData::inline_struct_enum` from `src/api/struct_enum.rs`
(the `process_one_of` closure applied to each `oneOf` member in order). -/
def inlineStructEnumLoop (oneOf : List Schema) (discField contField : Option String)
    (variants : List SimpleVariantV2) :
    Except String (Option String × Option String × List SimpleVariantV2) :=
  match oneOf with
  | [] => .ok (discField, contField, variants)
  | s :: rest => do
    let variant ← getObjValidation s
    let (vdName, disc) ← getDiscriminator variant
    let discField' ← sameStringUpdate discField vdName
    let len := variant.properties.length
    if 1 ≤ len ∧ len ≤ 2 then
      if len = 1 then
        inlineStructEnumLoop rest discField' contField
          (variants ++ [.mk disc (.ref none none)])
      else do
        let (vcField, content) ← getContent variant
        let contField' ← sameStringUpdate contField vcField
        inlineStructEnumLoop rest discField' contField' (variants ++ [.mk disc content])
    else .error "Found struct enum variant with unsupported property count, expected 1 or 2"

/-- Model of `TypeData::inline_struct_enum` from `src/api/struct_enum.rs`. -/
def TypeDataV2.inlineStructEnum (oneOf : List Schema) (fields : List FieldV2) :
    Except String TypeDataV2 := do
  let (discField, contField, variants) ← inlineStructEnumLoop oneOf none none []
  match discField with
  | none => throw "failed to find discriminator field"
  | some d =>
    match contField with
    | none => throw "failed to find content field"
    | some c => pure (.structEnum d (.adjacentlyTagged c variants) fields)

/-!
## `Type` conversion (`src/api/types.rs`)
-/

/-- Model of `TypeData::from_object_schema` from `src/api/types.rs`. -/
def TypeDataV2.fromObjectSchema (obj : ObjectValidation)
    (subschemas : Option SubschemaValidation) : Except String TypeDataV2 := do
  let fields ← structFieldsChecked obj
  match subschemas with
  | none => pure (.struct fields)
  | some sub => do
    if sub.allOf.isSome then throw "unsupported: allOf subschema"
    else if sub.anyOf.isSome then throw "unsupported: anyOf subschema"
    else if sub.notSchema.isSome then throw "unsupported: not subschema"
    else if sub.ifSchema.isSome then throw "unsupported: if subschema"
    else if sub.thenSchema.isSome then throw "unsupported: then subschema"
    else if sub.elseSchema.isSome then throw "unsupported: else subschema"
    else
      match sub.oneOf with
      | some oneOf => TypeDataV2.inlineStructEnum oneOf fields
      | none => pure (.struct fields)

/-- Model of `TypeData::from_string_enum` from `src/api/types.rs`. -/
def TypeDataV2.fromStringEnum (values : List Json) : Except String TypeDataV2 :=
  (TypeDataV2.stringEnum ·) <$> values.mapM fun v =>
    match v with
    | .str s => .ok s
    | _ => .error "enum value is not a string"

/-- Loop of `TypeData::from_integer_enum` from `src/api/types.rs`: walk the
values in parallel with `x-enum-varnames` (the caller checks the lengths are
equal; running out of varnames would be an index panic in the source). -/
def integerEnumLoop : List Json → List Json → Except String (List (String × Int))
  | [], _ => .ok []
  | v :: vs, varnames =>
    match v with
    | .num m =>
      match (Json.num m).asI64 with
      | none => .error "enum value is not an integer"
      | some num =>
        match varnames with
        | [] => .error "panic: index out of bounds"
        | vn :: vns =>
          match vn.asStr with
          | none => .error "enum varname is not a string"
          | some nm => do
            let restPairs ← integerEnumLoop vs vns
            .ok ((nm, num) :: restPairs)
    | _ => .error "enum value is not a number"

/-- Model of `TypeData::from_integer_enum` from `src/api/types.rs`. -/
def TypeDataV2.fromIntegerEnum (values enumVarnames : List Json) : Except String TypeDataV2 :=
  (TypeDataV2.integerEnum ·) <$> integerEnumLoop values enumVarnames

/-- Model of `Type::from_schema` from `src/api/types.rs`.  Note the `object`
case uses `s.object.unwrap_or_default()`. -/
def TypeV2.fromSchema (name : String) (s : SchemaObject) : Except String TypeV2 := do
  let data ←
    match s.instanceType with
    | some (.single it) =>
      match it with
      | .object => TypeDataV2.fromObjectSchema (s.object.getD {}) s.subschemas
      | .integer =>
        match lookupKV "x-enum-varnames" s.extensions with
        | none => throw "unsupported: integer type without enum varnames"
        | some ev =>
          match ev.asArray with
          | none => throw "unsupported: integer type enum varnames should be a list"
          | some enumVarnames =>
            match s.enumValues with
            | none => throw "unsupported: integer type without enum values"
            | some values =>
              if enumVarnames.length ≠ values.length then
                throw "enum varnames length does not match values length"
              else TypeDataV2.fromIntegerEnum values enumVarnames
      | .string =>
        match s.enumValues with
        | none => throw "unsupported: string type without enum values"
        | some values => TypeDataV2.fromStringEnum values
      | _ => throw "unsupported type"
    | some (.vec _) => throw "unsupported: multiple types"
    | none => throw "unsupported: no type"
  let metadata := s.metadata.getD {}
  pure (.mk name metadata.description metadata.deprecated data)

/-!
## Referenced components and per-target projections (`src/api/types.rs`)

`BTreeSet<&str>` results are embedded as sorted, duplicate-free lists built via
`insertSorted`.
-/

/-- Insertion into a sorted, duplicate-free list of strings; models inserting
into a `BTreeSet<String>` / `BTreeSet<&str>`. -/
def insertSorted (x : String) : List String → List String
  | [] => [x]
  | y :: ys => if x < y then x :: y :: ys else if x = y then y :: ys else y :: insertSorted x ys

/-- Model of `FieldType::referenced_schema` from `src/api/types.rs`, including
the `"Data"` carve-out (TODO(10055) in the source): a `SchemaRef` named `Data`
is not reported as a reference. -/
def FieldTypeV2.referencedSchema : FieldTypeV2 → Option String
  | .schemaRef name _ => if name = "Data" then none else some name
  | .list ty => FieldTypeV2.referencedSchema ty
  | .set ty => FieldTypeV2.referencedSchema ty
  | .map ty => FieldTypeV2.referencedSchema ty
  | _ => none

/-- Model of `fields_referenced_schemas` from `src/api/types.rs`. -/
def fieldsReferencedSchemas (fields : List FieldV2) : List String :=
  fields.foldl
    (fun acc f =>
      match f.type.referencedSchema with
      | some s => insertSorted s acc
      | none => acc)
    []

/-- Model of `StructEnumRepr::referenced_components` from `src/api/types.rs`.
Note the source quirk: for a `Struct` variant content, only the first field
with a referenced schema contributes (`find_map`). -/
def StructEnumReprV2.referencedComponents : StructEnumReprV2 → List String
  | .adjacentlyTagged _ variants =>
    variants.foldl
      (fun acc v =>
        match
          (match v.content with
           | .struct fields => fields.findSome? (fun f => f.type.referencedSchema)
           | .ref schemaRef _ => schemaRef) with
        | some s => insertSorted s acc
        | none => acc)
      []

/-- Union of two sorted string sets; models `BTreeSet::append`. -/
def listUnion (a b : List String) : List String :=
  b.foldl (fun acc x => insertSorted x acc) a

/-- Model of `Type::referenced_components` from `src/api/types.rs`. -/
def TypeV2.referencedComponents (ty : TypeV2) : List String :=
  match ty.data with
  | .struct fields => fieldsReferencedSchemas fields
  | .stringEnum _ => []
  | .integerEnum _ => []
  | .structEnum _ repr fields =>
    listUnion (StructEnumReprV2.referencedComponents repr) (fieldsReferencedSchemas fields)

/-- Model of `filter_schema_ref` from `src/api/types.rs`: a `SchemaRef` named
`Data` projects to the target's generic JSON-object typename instead (the
TODO(10055) workaround). -/
def filterSchemaRef (name : String) (jsonObjTypename : String) : String :=
  if name = "Data" then jsonObjTypename else name

/-- Model of `FieldType::to_csharp_typename` from `src/api/types.rs`. -/
def FieldTypeV2.toCsharpTypename : FieldTypeV2 → String
  | .bool => "bool"
  | .int16 => "short"
  | .int32 => "int"
  | .int64 => "long"
  | .uint16 => "ushort"
  | .uint32 => "uint"
  | .uint64 => "ulong"
  | .string => "string"
  | .dateTime => "DateTime"
  | .uri => "string"
  | .jsonObject => "Object"
  | .map valueTy => "Dictionary<string, " ++ FieldTypeV2.toCsharpTypename valueTy ++ ">"
  | .list inner => "List<" ++ FieldTypeV2.toCsharpTypename inner ++ ">"
  | .set inner => "List<" ++ FieldTypeV2.toCsharpTypename inner ++ ">"
  | .schemaRef name _ => filterSchemaRef name "Object"
  | .stringConst _ => "string"

/-- Model of `FieldType::to_go_typename` from `src/api/types.rs`. -/
def FieldTypeV2.toGoTypename : FieldTypeV2 → String
  | .bool => "bool"
  | .int16 => "int16"
  | .uint16 => "uint16"
  | .int32 => "int32"
  | .uint32 => "uint32"
  | .int64 => "int64"
  | .uint64 => "uint64"
  | .uri => "string"
  | .string => "string"
  | .dateTime => "time.Time"
  | .jsonObject => "map[string]any"
  | .map valueTy => "map[string]" ++ FieldTypeV2.toGoTypename valueTy
  | .list inner => "[]" ++ FieldTypeV2.toGoTypename inner
  | .set inner => "[]" ++ FieldTypeV2.toGoTypename inner
  | .schemaRef name _ => filterSchemaRef name "map[string]any"
  | .stringConst _ => "string"

/-- Model of `FieldType::to_kotlin_typename` from `src/api/types.rs`. -/
def FieldTypeV2.toKotlinTypename : FieldTypeV2 → String
  | .bool => "Boolean"
  | .int16 => "Short"
  | .uint16 => "UShort"
  | .int32 => "Int"
  | .uint32 => "UInt"
  | .int64 => "Long"
  | .uint64 => "ULong"
  | .uri => "String"
  | .string => "String"
  | .dateTime => "Instant"
  | .map valueTy => "Map<String," ++ FieldTypeV2.toKotlinTypename valueTy ++ ">"
  | .jsonObject => "Map<String,Any>"
  | .list inner => "List<" ++ FieldTypeV2.toKotlinTypename inner ++ ">"
  | .set inner => "Set<" ++ FieldTypeV2.toKotlinTypename inner ++ ">"
  | .schemaRef name _ => filterSchemaRef name "Map<String,Any>"
  | .stringConst _ => "String"

/-- Model of `FieldType::to_js_typename` from `src/api/types.rs`. -/
def FieldTypeV2.toJsTypename : FieldTypeV2 → String
  | .bool => "boolean"
  | .int16 => "number"
  | .uint16 => "number"
  | .int32 => "number"
  | .uint32 => "number"
  | .int64 => "number"
  | .uint64 => "number"
  | .string => "string"
  | .uri => "string"
  | .dateTime => "Date"
  | .jsonObject => "any"
  | .list inner => FieldTypeV2.toJsTypename inner ++ "[]"
  | .set inner => FieldTypeV2.toJsTypename inner ++ "[]"
  | .map valueTy => "\x7b [key: string]: " ++ FieldTypeV2.toJsTypename valueTy ++ " \x7d"
  | .schemaRef name _ => filterSchemaRef name "any"
  | .stringConst _ => "string"

/-- Model of `FieldType::to_rust_typename` from `src/api/types.rs`. -/
def FieldTypeV2.toRustTypename : FieldTypeV2 → String
  | .bool => "bool"
  | .int16 => "i16"
  | .uint16 => "u16"
  | .int32 => "i32"
  | .uint32 => "i32"
  | .int64 => "i32"
  | .uint64 => "i32"
  | .uri => "String"
  | .string => "String"
  | .dateTime => "DateTime<Utc>"
  | .jsonObject => "serde_json::Value"
  | .list inner => "Vec<" ++ FieldTypeV2.toRustTypename inner ++ ">"
  | .set inner => "Vec<" ++ FieldTypeV2.toRustTypename inner ++ ">"
  | .map valueTy => "std::collections::HashMap<String, " ++ FieldTypeV2.toRustTypename valueTy ++ ">"
  | .schemaRef name _ => filterSchemaRef name "serde_json::Value"
  | .stringConst _ => "String"

/-- Model of `FieldType::to_python_typename` from `src/api/types.rs`. -/
def FieldTypeV2.toPythonTypename : FieldTypeV2 → String
  | .bool => "bool"
  | .int16 => "int"
  | .uint16 => "int"
  | .int32 => "int"
  | .uint32 => "int"
  | .int64 => "int"
  | .uint64 => "int"
  | .string => "str"
  | .dateTime => "datetime"
  | .schemaRef name _ => filterSchemaRef name "t.Dict[str, t.Any]"
  | .uri => "str"
  | .jsonObject => "t.Dict[str, t.Any]"
  | .set inner => "t.List[" ++ FieldTypeV2.toPythonTypename inner ++ "]"
  | .list inner => "t.List[" ++ FieldTypeV2.toPythonTypename inner ++ "]"
  | .map valueTy => "t.Dict[str, " ++ FieldTypeV2.toPythonTypename valueTy ++ "]"
  | .stringConst _ => "str"

/-- Model of `FieldType::to_java_typename` from `src/api/types.rs`. -/
def FieldTypeV2.toJavaTypename : FieldTypeV2 → String
  | .bool => "Boolean"
  | .int16 => "Short"
  | .uint16 => "Long"
  | .uint64 => "Long"
  | .int64 => "Long"
  | .int32 => "Integer"
  | .uint32 => "Integer"
  | .string => "String"
  | .dateTime => "OffsetDateTime"
  | .uri => "URI"
  | .jsonObject => "Object"
  | .list inner => "List<" ++ FieldTypeV2.toJavaTypename inner ++ ">"
  | .set inner => "Set<" ++ FieldTypeV2.toJavaTypename inner ++ ">"
  | .map valueTy => "Map<String," ++ FieldTypeV2.toJavaTypename valueTy ++ ">"
  | .schemaRef name _ => filterSchemaRef name "Object"
  | .stringConst _ => "TypeEnum"

/-- Model of `FieldType::to_ruby_typename` from `src/api/types.rs`.  The source
panics (`unreachable!` for `StringConst`, `panic!` for every variant other than
`SchemaRef`); panicking paths are embedded as `none`. -/
def FieldTypeV2.toRubyTypename : FieldTypeV2 → Option String
  | .schemaRef name _ => some name
  | .stringConst _ => none
  | _ => none

/-- Model of `FieldType::to_php_typename` from `src/api/types.rs`.  Note that
`SchemaRef` projects to the literal name here: this projection does not go
through `filter_schema_ref`. -/
def FieldTypeV2.toPhpTypename : FieldTypeV2 → String
  | .bool => "bool"
  | .uint16 => "int"
  | .int16 => "int"
  | .uint64 => "int"
  | .int32 => "int"
  | .uint32 => "int"
  | .int64 => "int"
  | .uri => "string"
  | .stringConst _ => "string"
  | .string => "string"
  | .dateTime => "\\DateTimeImmutable"
  | .jsonObject => "array"
  | .list _ => "array"
  | .set _ => "array"
  | .map _ => "array"
  | .schemaRef name _ => name

/-- Model of `FieldType::to_phpdoc_typename` from `src/api/types.rs`. -/
def FieldTypeV2.toPhpdocTypename : FieldTypeV2 → String
  | .set inner => "list<" ++ FieldTypeV2.toPhpdocTypename inner ++ ">"
  | .list inner => "list<" ++ FieldTypeV2.toPhpdocTypename inner ++ ">"
  | .map valueTy => "array<string, " ++ FieldTypeV2.toPhpdocTypename valueTy ++ ">"
  | ft => FieldTypeV2.toPhpTypename ft

/-!
## The Type Graph Builder (`from_referenced_components`, `src/api/types.rs`)

The schema pool `IndexMap<String, openapi::SchemaObject>` is embedded as an
association list with unique keys (`aide::openapi::SchemaObject` is flattened
to its `json_schema`).  `IndexMap::swap_remove` removes the entry with the
given key (perturbing the iteration order of the remainder, which the
algorithm never relies on — theorem `C2` below proves pool order is
irrelevant); here it is embedded as order-preserving keyed removal.

The `BTreeSet<String>` frontier (`extra_components`) is embedded as a sorted
duplicate-free list, whose head is `pop_first`'s result (the lexicographically
smallest pending name).

The seed list parameter stands for the `referenced_components` vector the
source builds from the webhook list and `resources::referenced_components`
before entering the loop (the `resources` module is not part of the sources
under verification; the claims quantify over the seed set).

Besides the `name → Type` map, the embedded loop also returns the trace of
names that were found in (and removed from) the pool, in processing order, so
that "each schema is converted at most once" can be stated.
-/

/-- Model of `IndexMap::swap_remove`: remove the entry with the given key,
returning its value and the remaining pool. -/
def removeFirstKey {α : Type} (k : String) : List (String × α) → Option (α × List (String × α))
  | [] => none
  | (k', v) :: tl =>
    if k' = k then some (v, tl)
    else
      match removeFirstKey k tl with
      | some (v', tl') => some (v', (k', v) :: tl')
      | none => none

/-- Removal shrinks the pool (used for the builder's termination measure). -/
theorem removeFirstKey_length {α : Type} (k : String) :
    ∀ (l : List (String × α)) (v : α) (l' : List (String × α)),
      removeFirstKey k l = some (v, l') → l'.length < l.length := by
  intro l
  induction l with
  | nil => intro v l' h; simp [removeFirstKey] at h
  | cons hd tl ih =>
    intro v l' h
    obtain ⟨k0, v0⟩ := hd
    rw [removeFirstKey] at h
    split at h
    · cases h
      simp
    · cases htl : removeFirstKey k tl with
      | none => rw [htl] at h; cases h
      | some p =>
        obtain ⟨v', tl'⟩ := p
        rw [htl] at h
        dsimp only at h
        simp only [Option.some.injEq, Prod.mk.injEq] at h
        obtain ⟨h1, h2⟩ := h
        subst h2
        have := ih v' tl' htl
        simp only [List.length_cons]
        omega

/-- Sorted insertion of a `Type` into the `BTreeMap<String, Type>` result map
(insert-or-replace, keyed). -/
def insertKV (k : String) (v : TypeV2) : List (String × TypeV2) → List (String × TypeV2)
  | [] => [(k, v)]
  | (k', v') :: tl =>
    if k < k' then (k, v) :: (k', v') :: tl
    else if k = k' then (k, v) :: tl
    else (k', v') :: insertKV k v tl

/-- The `name → Type` result map of the builder. -/
abbrev TypesV2 := List (String × TypeV2)

/-- Model of the loop of `from_referenced_components` (`src/api/types.rs`),
with the `add_type` closure inlined.  Returns the result map together with the
trace of pool hits.  Termination: each iteration either removes an entry from
the pool or, leaving the pool unchanged, shrinks the frontier by one. -/
def tgLoop (schemas : List (String × Schema)) (frontier : List String) (types : TypesV2) :
    TypesV2 × List String :=
  match frontier with
  | [] => (types, [])
  | c :: rest =>
    match h : removeFirstKey c schemas with
    | none =>
      -- warn: schema not found
      tgLoop schemas rest types
    | some (s, schemas') =>
      match s with
      | .bool _ =>
        -- warn: $ref'erenced bool schema
        let r := tgLoop schemas' rest types
        (r.1, c :: r.2)
      | .obj o =>
        match TypeV2.fromSchema c o with
        | .error _ =>
          -- warn: unsupported schema
          let r := tgLoop schemas' rest types
          (r.1, c :: r.2)
        | .ok ty =>
          let newRefs :=
            (TypeV2.referencedComponents ty).filter
              (fun r => r != c && (lookupKV r types).isNone)
          let frontier' := newRefs.foldl (fun f r => insertSorted r f) rest
          let r := tgLoop schemas' frontier' (insertKV c ty types)
          (r.1, c :: r.2)
termination_by (schemas.length, frontier.length)
decreasing_by
  all_goals
    first
      | (apply Prod.Lex.right; simp)
      | (apply Prod.Lex.left; exact removeFirstKey_length _ _ _ _ (by assumption))

/-- Model of `from_referenced_components` from `src/api/types.rs`:
`referencedComponents` is the seed list (webhook schemas plus the resource
tree's referenced components), `schemas` the component schema pool. -/
def fromReferencedComponents (referencedComponents : List String)
    (schemas : List (String × Schema)) : TypesV2 :=
  (tgLoop schemas (referencedComponents.foldl (fun f s => insertSorted s f) []) []).1

/-- The trace of schema names that `fromReferencedComponents` found in (and
removed from) the pool, in processing order. -/
def processedSchemas (referencedComponents : List String)
    (schemas : List (String × Schema)) : List String :=
  (tgLoop schemas (referencedComponents.foldl (fun f s => insertSorted s f) []) []).2

/-!
## The v1 field-type model (`src/types.rs`)

`FieldType` from `src/types.rs` has no `UInt32` variant and a plain
`SchemaRef(String)` with no `inner`; its `from_schema_object` accepts fewer
integer formats (no `uint32`) and fewer string formats (no `color`/`email`).
-/

/-- Model of `FieldType` from `src/types.rs`. -/
inductive FieldTypeV1 where
  | bool
  | int16
  | uint16
  | int32
  | int64
  | uint64
  | string
  | dateTime
  | uri
  | jsonObject
  | list (inner : FieldTypeV1)
  | set (inner : FieldTypeV1)
  | map (valueTy : FieldTypeV1)
  | schemaRef (name : String)
  | stringConst (value : String)
  deriving DecidableEq

/-- Model of the v1 final `ensure!` checks of `FieldType::from_schema_object`
(`src/types.rs`), as in `ensureNoConstEnum`. -/
def ensureNoConstEnumV1 (o : SchemaObject) (result : FieldTypeV1) : Except String FieldTypeV1 :=
  if o.constValue.isSome then .error "unsupported const_value"
  else if o.enumValues.isSome then .error "unsupported enum_values"
  else .ok result

mutual

/-- Model of `FieldType::from_schema` from `src/types.rs`. -/
def FieldTypeV1.fromSchema (s : Schema) : Except String FieldTypeV1 :=
  match s with
  | .bool _ => .error "found unexpected true schema"
  | .obj o => FieldTypeV1.fromSchemaObject o
termination_by sizeOf s
decreasing_by
  simp_wf

/-- Model of `FieldType::from_schema_object` from `src/types.rs`.  Structured
like `FieldTypeV2.fromSchemaObject` (early string-const returns, then the final
`const_value` / `enum_values` checks via `ensureNoConstEnumV1`). -/
def FieldTypeV1.fromSchemaObject (o : SchemaObject) : Except String FieldTypeV1 :=
  match o.instanceType with
  | some (.single ty) =>
    match ty with
    | .boolean => ensureNoConstEnumV1 o .bool
    | .integer =>
      match o.format with
      | some "int16" => ensureNoConstEnumV1 o .int16
      | some "uint16" => ensureNoConstEnumV1 o .uint16
      | some "int32" => ensureNoConstEnumV1 o .int32
      | some "int" => ensureNoConstEnumV1 o .int64
      | some "int64" => ensureNoConstEnumV1 o .int64
      | some "uint" => ensureNoConstEnumV1 o .uint64
      | some "uint64" => ensureNoConstEnumV1 o .uint64
      | _ => .error "unsupported integer format"
    | .string =>
      match o.constValue with
      | some value =>
        match value with
        | .str v => .ok (.stringConst v)
        | _ => .error "unsupported: non-string constant as field type"
      | none =>
        match o.enumValues with
        | some values =>
          match values with
          | [value] =>
            match value with
            | .str v => .ok (.stringConst v)
            | _ => .error "unsupported: non-string constant as field type"
          | _ => .error "unsupported: enum as field type"
        | none =>
          match o.format with
          | none => ensureNoConstEnumV1 o .string
          | some "date-time" => ensureNoConstEnumV1 o .dateTime
          | some "uri" => ensureNoConstEnumV1 o .uri
          | some _ => .error "unsupported string format"
    | .array =>
      match h1 : o.array with
      | none => .error "array type must have array props"
      | some arr =>
        if arr.additionalItems.isSome then .error "not supported"
        else
          match h2 : arr.items with
          | none => .error "array type must have items prop"
          | some (.vec _) => .error "unsupported multi-typed array parameter"
          | some (.single inner) =>
            match FieldTypeV1.fromSchema inner with
            | .error e => .error e
            | .ok innerTy =>
              if arr.uniqueItems = some true then ensureNoConstEnumV1 o (.set innerTy)
              else ensureNoConstEnumV1 o (.list innerTy)
    | .object =>
      match h3 : o.object with
      | none => .error "unsupported: object type without further validation"
      | some objv =>
        match h4 : objv.additionalProperties with
        | none => .error "unsupported: object field type without additional_properties"
        | some addProps =>
          if objv.maxProperties.isSome then .error "unsupported: max_properties"
          else if objv.minProperties.isSome then .error "unsupported: min_properties"
          else if !objv.properties.isEmpty then .error "unsupported: properties on field type"
          else if !objv.patternProperties.isEmpty then .error "unsupported: pattern_properties"
          else if objv.propertyNames.isSome then .error "unsupported: property_names"
          else if !objv.required.isEmpty then .error "unsupported: required on field type"
          else
            match h5 : addProps with
            | .bool true => ensureNoConstEnumV1 o .jsonObject
            | .bool false => .error "unsupported additional_properties false"
            | .obj so =>
              match FieldTypeV1.fromSchemaObject so with
              | .error e => .error e
              | .ok valueTy => ensureNoConstEnumV1 o (.map valueTy)
    | _ => .error "unsupported type"
  | some (.vec _) => .error "unsupported multi-typed parameter"
  | none =>
    match getSchemaName o.reference with
    | some name => ensureNoConstEnumV1 o (.schemaRef name)
    | none => .error "unsupported type-less parameter"
termination_by sizeOf o
decreasing_by
  · simp_wf
    exact sizeOf_lt_of_items_single o arr inner h1 h2
  · simp_wf
    exact sizeOf_lt_of_additional_properties o objv so h3 (h5 ▸ h4)

end

/-- Model of `FieldType::referenced_schema` from `src/types.rs`.  Unlike the v2
version there is no `"Data"` carve-out here. -/
def FieldTypeV1.referencedSchema : FieldTypeV1 → Option String
  | .schemaRef v => some v
  | .list ty => FieldTypeV1.referencedSchema ty
  | .set ty => FieldTypeV1.referencedSchema ty
  | .map ty => FieldTypeV1.referencedSchema ty
  | _ => none

/-!
## Resource/operation extraction (`src/api.rs`)

The extractor's Rust return type is `Option<(Vec<String>, Operation)>`, but the
function can also `panic!` via `assert!` / `assert_eq!` / `unimplemented!` /
`expect`, which aborts the whole run.  The embedding distinguishes the two with
`Halt`: `skip` models `return None` (operation dropped with a log), `fatal`
models a panic.

`aide::openapi` input data is modelled structurally; `aide`'s `SchemaObject` is
flattened to its `json_schema`.
-/

/-- Outcome tiers of the extractor: `skip` = `return None` (drop one unit with
a log), `fatal` = panic (`assert!` and friends) aborting the run. -/
inductive Halt where
  | skip
  | fatal
  deriving DecidableEq

/-- Model of `aide::openapi::ReferenceOr`. -/
inductive RefOr (α : Type) where
  | reference (r : String)
  | item (a : α)

/-- Model of `aide::openapi::PathStyle`. -/
inductive PathStyle where
  | matrix
  | label
  | simple
  deriving DecidableEq

/-- Model of `aide::openapi::QueryStyle`. -/
inductive QueryStyle where
  | form
  | spaceDelimited
  | pipeDelimited
  | deepObject
  deriving DecidableEq

/-- Model of `aide::openapi::HeaderStyle` (only `Simple` exists). -/
inductive HeaderStyle where
  | simple
  deriving DecidableEq

/-- Model of `aide::openapi::CookieStyle` (only `Form` exists). -/
inductive CookieStyle where
  | form
  deriving DecidableEq

/-- Model of `aide::openapi::ParameterSchemaOrContent`; the `Schema` case holds
an `aide::openapi::SchemaObject`, flattened here to its `json_schema`. -/
inductive ParameterSchemaOrContent where
  | schema (jsonSchema : Schema)
  | content

/-- Model of `aide::openapi::ParameterData` (fields the source reads). -/
structure ParameterData where
  name : String
  description : Option String := none
  required : Bool := false
  format : ParameterSchemaOrContent

/-- Model of `aide::openapi::Parameter`. -/
inductive Parameter where
  | path (parameterData : ParameterData) (style : PathStyle)
  | query (parameterData : ParameterData) (allowReserved : Bool) (style : QueryStyle)
      (allowEmptyValue : Option Bool)
  | header (parameterData : ParameterData) (style : HeaderStyle)
  | cookie (parameterData : ParameterData) (style : CookieStyle)

/-- Model of `aide::openapi::MediaType` (fields the source reads). -/
structure MediaType where
  schema : Option Schema := none
  extensions : List (String × Json) := []

/-- Model of `aide::openapi::RequestBody` (fields the source reads); `content`
is an `IndexMap<String, MediaType>`. -/
structure RequestBody where
  content : List (String × MediaType) := []
  required : Bool := false
  extensions : List (String × Json) := []

/-- Model of `aide::openapi::Response` (fields the source reads). -/
structure Response where
  content : List (String × MediaType) := []
  extensions : List (String × Json) := []

/-- Model of `aide::openapi::StatusCode`. -/
inductive StatusCode where
  | code (c : Nat)
  | range (r : Nat)
  deriving DecidableEq

/-- Model of `aide::openapi::Responses` (fields the source reads); `responses`
is an `IndexMap<StatusCode, ReferenceOr<Response>>` in insertion order. -/
structure Responses where
  default : Option (RefOr Response) := none
  responses : List (StatusCode × RefOr Response) := []
  extensions : List (String × Json) := []

/-- Model of `aide::openapi::Operation` (fields the source reads). -/
structure OperationIn where
  operationId : Option String := none
  description : Option String := none
  deprecated : Bool := false
  extensions : List (String × Json) := []
  parameters : List (RefOr Parameter) := []
  requestBody : Option (RefOr RequestBody) := none
  responses : Option Responses := none

/-- Model of `HeaderParam` from `src/api.rs`. -/
structure HeaderParamV1 where
  name : String
  required : Bool
  deriving DecidableEq

/-- Model of `QueryParam` from `src/api.rs`. -/
structure QueryParamV1 where
  name : String
  description : Option String
  required : Bool
  type : FieldTypeV1
  deriving DecidableEq

/-- Model of `Operation` from `src/api.rs`. -/
structure OperationV1 where
  id : String
  name : String
  description : Option String
  deprecated : Bool
  method : String
  path : String
  pathParams : List String
  headerParams : List HeaderParamV1
  queryParams : List QueryParamV1
  requestBodySchemaName : Option String
  requestBodyAllOptional : Bool
  responseBodySchemaName : Option String
  deriving DecidableEq

/-- Character-level split on `.`; models Rust's `str::split('.')` (empty
pieces are kept; the result is never empty). -/
def splitCharsDot : List Char → List (List Char)
  | [] => [[]]
  | c :: rest =>
    if c = '.' then [] :: splitCharsDot rest
    else
      match splitCharsDot rest with
      | [] => [[c]]
      | piece :: pieces => (c :: piece) :: pieces

/-- Model of `op_id.split('.')` from `src/api.rs`. -/
def splitDots (s : String) : List String :=
  (splitCharsDot s.toList).map (fun cs => String.mk cs)

/-- Model of the operationId parsing steps of `Operation::from_openapi`
(`src/api.rs` lines 193-210): split on `.`; the first part is the version, the
last part the operation name, the parts in between the resource path. Returns
`none` (skip) when there is no `.`, when the resource path is empty, or when
the version is not `v1`. -/
def parseOperationId (opId : String) : Option (List String × String) :=
  match splitDots opId with
  | [] => none
  | version :: rest =>
    match rest.getLast? with
    | none => none
    | some opName =>
      let resPath := rest.dropLast
      if resPath.isEmpty then none
      else if version ≠ "v1" then none
      else some (resPath, opName)

/-- Model of `enforce_string_parameter` from `src/api.rs`. -/
def enforceStringParameter (parameterData : ParameterData) : Except String Unit :=
  match parameterData.format with
  | .content => .error "found unexpected content data format"
  | .schema js =>
    match js with
    | .bool _ => .error "found unexpected true schema"
    | .obj o =>
      match o.instanceType with
      | some (.single .string) => .ok ()
      | _ => .error "unsupported path parameter type"

/-- Model of `FieldType::from_openapi` from `src/types.rs`. -/
def FieldTypeV1.fromOpenapi (format : ParameterSchemaOrContent) : Except String FieldTypeV1 :=
  match format with
  | .content => .error "found unexpected content data format"
  | .schema s => FieldTypeV1.fromSchema s

/-- Model of the parameter loop of `Operation::from_openapi` (`src/api.rs`):
accumulates path, header and query parameters in order.  A `$ref` parameter,
an unsupported parameter kind, or an unsupported parameter type skips the whole
operation; an optional path parameter is an `assert!` failure (fatal); a query
parameter named `get_if_exists` on a POST operation is silently dropped. -/
def processParams (method : String) :
    List (RefOr Parameter) →
      Except Halt (List String × List HeaderParamV1 × List QueryParamV1)
  | [] => .ok ([], [], [])
  | p :: rest =>
    match p with
    | .reference _ => .error .skip
    | .item (.path parameterData .simple) =>
      if !parameterData.required then .error .fatal
      else
        match enforceStringParameter parameterData with
        | .error _ => .error .skip
        | .ok _ => do
          let (ps, hs, qs) ← processParams method rest
          pure (parameterData.name :: ps, hs, qs)
    | .item (.header parameterData .simple) =>
      -- an unknown header name (anything but idempotency-key) only warns
      match enforceStringParameter parameterData with
      | .error _ => .error .skip
      | .ok _ => do
        let (ps, hs, qs) ← processParams method rest
        pure (ps, ⟨parameterData.name, parameterData.required⟩ :: hs, qs)
    | .item (.query parameterData false .form none) =>
      if method = "post" ∧ parameterData.name = "get_if_exists" then
        processParams method rest
      else
        match FieldTypeV1.fromOpenapi parameterData.format with
        | .error _ => .error .skip
        | .ok ty => do
          let (ps, hs, qs) ← processParams method rest
          pure (ps, hs,
            ⟨parameterData.name, parameterData.description, parameterData.required, ty⟩ :: qs)
    | .item _ => .error .skip

/-- Model of the `request_body_all_optional` computation in
`Operation::from_openapi` (`src/api.rs`): dereference the JSON body schema
(directly, or through exactly one `$ref` into the component schemas) and check
that its `required` list is empty; `unimplemented!` paths are fatal. -/
def computeReqBodyAllOptional (requestBody : Option (RefOr RequestBody))
    (componentSchemas : List (String × Schema)) : Except Halt Bool :=
  match requestBody with
  | none => .ok false
  | some (.reference _) => .error .fatal
  | some (.item body) =>
    match lookupKV "application/json" body.content with
    | none => .ok false
    | some mt =>
      match mt.schema with
      | none => .ok false
      | some (.bool _) => .ok false
      | some (.obj o) =>
        match o.object with
        | some ov => .ok ov.required.isEmpty
        | none =>
          match o.reference with
          | some s =>
            match getSchemaName (some s) with
            | none => .error .fatal
            | some nm =>
              match lookupKV nm componentSchemas with
              | some (.obj o2) =>
                match o2.object with
                | some ov2 => .ok ov2.required.isEmpty
                | none => .error .fatal
              | _ => .error .fatal
          | none => .ok false

/-- Model of the `request_body_schema_name` computation in
`Operation::from_openapi` (`src/api.rs`): the body must be required, without
extensions, with exactly one `application/json` content entry whose schema is
present; `assert!` / `expect` failures are fatal, a bool or non-`$ref` schema
logs an error and yields no name, a `$ref` body is dropped with an error log. -/
def computeReqBodySchemaName (requestBody : Option (RefOr RequestBody)) :
    Except Halt (Option String) :=
  match requestBody with
  | none => .ok none
  | some (.reference _) => .ok none
  | some (.item body) =>
    if !body.required then .error .fatal
    else if !body.extensions.isEmpty then .error .fatal
    else
      match body.content with
      | [(k, mt)] =>
        if k = "application/json" then
          if !mt.extensions.isEmpty then .error .fatal
          else
            match mt.schema with
            | none => .error .fatal
            | some (.bool _) => .ok none
            | some (.obj o) => .ok (getSchemaName o.reference)
        else .error .fatal
      | _ => .error .fatal

/-- Model of the free function `response_body_schema_name` from `src/api.rs`. -/
def responseBodySchemaName (resp : RefOr Response) : Except Halt (Option String) :=
  match resp with
  | .reference _ => .ok none
  | .item respBody =>
    if !respBody.extensions.isEmpty then .error .fatal
    else if respBody.content.isEmpty then .ok none
    else
      match respBody.content with
      | [(k, mt)] =>
        if k = "application/json" then
          if !mt.extensions.isEmpty then .error .fatal
          else
            match mt.schema with
            | none => .error .fatal
            | some (.bool _) => .ok none
            | some (.obj o) => .ok (getSchemaName o.reference)
        else .error .fatal
      | _ => .error .fatal

/-- Model of the 2xx filter in `Operation::from_openapi` (`src/api.rs`): only
`StatusCode::Code(c)` with `200 <= c < 300` is kept (everything else is
filtered out, some cases with an error log). -/
def isSuccessStatus : StatusCode → Bool
  | .code c => 200 ≤ c ∧ c < 300
  | .range _ => false

/-- Loop of the response consistency check: every further success response must
resolve to the same schema name as the first (`assert_eq!`, fatal otherwise). -/
def checkSameSchemaName (schemaName : Option String) :
    List (StatusCode × RefOr Response) → Except Halt (Option String)
  | [] => .ok schemaName
  | (_, resp) :: rest => do
    let n ← responseBodySchemaName resp
    if n = schemaName then checkSameSchemaName schemaName rest
    else .error .fatal

/-- Model of the `response_body_schema_name` computation in
`Operation::from_openapi` (`src/api.rs`, the closure passed to
`op.responses.and_then`): assert no `default` response and no extensions,
filter the responses down to 2xx status codes, require at least one (fatal
otherwise, via `expect`), and require all of them to resolve to the same
schema name (fatal otherwise, via `assert_eq!`). -/
def extractResponseSchemaName (r : Responses) : Except Halt (Option String) :=
  if r.default.isSome then .error .fatal
  else if !r.extensions.isEmpty then .error .fatal
  else
    match r.responses.filter (fun p => isSuccessStatus p.1) with
    | [] => .error .fatal
    | (_, resp) :: rest => do
      let schemaName ← responseBodySchemaName resp
      checkSameSchemaName schemaName rest

/-- Model of `Operation::from_openapi` from `src/api.rs`. -/
def OperationV1.fromOpenapi (path method : String) (op : OperationIn)
    (componentSchemas : List (String × Schema)) (includeHidden : Bool) :
    Except Halt (List String × OperationV1) := do
  let some opId := op.operationId | throw .skip
  if !includeHidden &&
      (match lookupKV "x-hidden" op.extensions with
       | some (.b true) => true
       | _ => false) then
    throw .skip
  let some (resPath, opName) := parseOperationId opId | throw .skip
  let (pathParams, headerParams, queryParams) ← processParams method op.parameters
  let requestBodyAllOptional ← computeReqBodyAllOptional op.requestBody componentSchemas
  let requestBodySchemaName ← computeReqBodySchemaName op.requestBody
  let responseBodySchemaNameRes ←
    match op.responses with
    | none => pure none
    | some r => extractResponseSchemaName r
  pure (resPath,
    { id := opId
      name := opName
      description := op.description
      deprecated := op.deprecated
      method := method
      path := path
      pathParams := pathParams
      headerParams := headerParams
      queryParams := queryParams
      requestBodySchemaName := requestBodySchemaName
      requestBodyAllOptional := requestBodyAllOptional
      responseBodySchemaName := responseBodySchemaNameRes })

/-!
## The v1 resource tree (`src/api.rs`)

`BTreeMap<String, Resource>` is embedded as a sorted association list, written
as its own list-like inductive (`SubresourcesV1`) so that the mutual recursion
with `ResourceV1` stays structural.
-/

mutual

/-- Model of `Resource` from `src/api.rs`. -/
inductive ResourceV1 where
  | mk (name : String) (operations : List OperationV1) (subresources : SubresourcesV1)

/-- Sorted association list of subresources keyed by path segment; models the
`BTreeMap<String, Resource>` in `Resource::subresources`. -/
inductive SubresourcesV1 where
  | nil
  | cons (key : String) (r : ResourceV1) (rest : SubresourcesV1)

end

/-- Projection of the `name` field of `ResourceV1`. -/
def ResourceV1.name : ResourceV1 → String
  | .mk n _ _ => n

/-- Projection of the `operations` field of `ResourceV1`. -/
def ResourceV1.operations : ResourceV1 → List OperationV1
  | .mk _ ops _ => ops

/-- Projection of the `subresources` field of `ResourceV1`. -/
def ResourceV1.subresources : ResourceV1 → SubresourcesV1
  | .mk _ _ subs => subs

/-- Model of `Resource::new` from `src/api.rs`. -/
def ResourceV1.new (name : String) : ResourceV1 :=
  .mk name [] .nil

/-- Model of `BTreeMap::entry(key).or_insert_with(dflt)` followed by applying a
mutation `f` to the entry: looks up `key` in the sorted map, inserting
`dflt` at the sorted position if absent, then replaces the entry's resource
with `f` of it. -/
def SubresourcesV1.updateEntry (key : String) (dflt : ResourceV1) (f : ResourceV1 → ResourceV1) :
    SubresourcesV1 → SubresourcesV1
  | .nil => .cons key (f dflt) .nil
  | .cons k r rest =>
    if key < k then .cons key (f dflt) (.cons k r rest)
    else if key = k then .cons k (f r) rest
    else .cons k r (SubresourcesV1.updateEntry key dflt f rest)

/-- Model of the navigation loop of `get_or_insert_resource` (`src/api.rs`)
combined with the `resource.operations.push(op)` at its call site in
`Api::new`: starting from a resource node, walk/create the remaining path
segments (each created node's name is the dash-joined prefix up to it) and
append the operation at the leaf. -/
def addOpToResource (op : OperationV1) (name : String) :
    List String → ResourceV1 → ResourceV1
  | [], r => .mk r.name (r.operations ++ [op]) r.subresources
  | subName :: restPath, r =>
    let name' := name ++ "-" ++ subName
    .mk r.name r.operations
      (r.subresources.updateEntry subName (ResourceV1.new name')
        (addOpToResource op name' restPath))

/-- Model of `get_or_insert_resource` (`src/api.rs`) combined with the
`resource.operations.push(op)` at its call site: the first path segment
selects/creates a top-level resource, the remaining segments nested ones.
The source `expect`s a non-empty path, so the first segment is a separate
argument here. -/
def addOpAtPath (resources : SubresourcesV1) (first : String) (restPath : List String)
    (op : OperationV1) : SubresourcesV1 :=
  resources.updateEntry first (ResourceV1.new first) (addOpToResource op first restPath)

/-- Per-query-parameter step of `Resource::referenced_components`
(`src/api.rs`): `if let FieldType::SchemaRef(name) = &param.r#type` — only a
top-level `SchemaRef` query parameter type contributes its name. -/
def qpInsert (a : List String) (p : QueryParamV1) : List String :=
  match p.type with
  | .schemaRef n => insertSorted n a
  | _ => a

/-- Insertion of an optional schema name into the accumulated set. -/
def optInsert (a : List String) (o : Option String) : List String :=
  match o with
  | some n => insertSorted n a
  | none => a

/-- Per-operation step of `Resource::referenced_components` (`src/api.rs`):
top-level `SchemaRef` query parameters, then the request body schema name,
then the response body schema name. -/
def opInsert (a : List String) (op : OperationV1) : List String :=
  optInsert (optInsert (op.queryParams.foldl qpInsert a) op.requestBodySchemaName)
    op.responseBodySchemaName

mutual

/-- Accumulating walk of `Resource::referenced_components` (`src/api.rs`): for
each resource, first the subresources are walked, then every operation
contributes via `opInsert`.  The accumulator is the `BTreeSet<&str>` being
built (a sorted duplicate-free list here). -/
def ResourceV1.refCompsAcc : ResourceV1 → List String → List String
  | .mk _ ops subs, acc => ops.foldl opInsert (SubresourcesV1.refCompsAcc subs acc)

/-- Walk of all subresources for `ResourceV1.refCompsAcc`. -/
def SubresourcesV1.refCompsAcc : SubresourcesV1 → List String → List String
  | .nil, acc => acc
  | .cons _ r rest, acc => SubresourcesV1.refCompsAcc rest (ResourceV1.refCompsAcc r acc)

end

/-- Model of `Resource::referenced_components` from `src/api.rs`. -/
def ResourceV1.referencedComponents (r : ResourceV1) : List String :=
  ResourceV1.refCompsAcc r []

/-!
## Claim inputs and theorems
-/

/-- The `$ref Foo` property schema of the C3 example. -/
def fooRefSchema : Schema :=
  .obj { reference := some "#/components/schemas/Foo" }

/-- A string property schema carrying exactly one enum value (the `const`
encoding used by the discriminator properties of the C3 example). -/
def typeConstSchema (v : String) : Schema :=
  .obj { instanceType := some (.single .string), enumValues := some [.str v] }

/-- The inline `{x: int}` object property schema of the C3 example. -/
def xIntFieldSchema : Schema :=
  .obj { instanceType := some (.single .integer), format := some "int64" }

def xIntObjSchema : Schema :=
  .obj { instanceType := some (.single .object),
         object := some { properties := [("x", xIntFieldSchema)], required := ["x"] } }

/-- Object validation of the first C3 `oneOf` variant
(`{type: const "a", data: $ref Foo}`), properties in `BTreeMap` order. -/
def c3VariantAObj : ObjectValidation :=
  { properties := [("data", fooRefSchema), ("type", typeConstSchema "a")],
    required := ["data", "type"] }

/-- Object validation of the second C3 `oneOf` variant
(`{type: const "b", data: {x: int}}`). -/
def c3VariantBObj : ObjectValidation :=
  { properties := [("data", xIntObjSchema), ("type", typeConstSchema "b")],
    required := ["data", "type"] }

/-- Object validation of the third C3 `oneOf` variant (`{type: const "c"}`). -/
def c3VariantCObj : ObjectValidation :=
  { properties := [("type", typeConstSchema "c")], required := ["type"] }

/-- The three C3 `oneOf` variant schemas, in order. -/
def c3OneOf : List Schema :=
  [.obj { instanceType := some (.single .object), object := some c3VariantAObj },
   .obj { instanceType := some (.single .object), object := some c3VariantBObj },
   .obj { instanceType := some (.single .object), object := some c3VariantCObj }]

set_option maxRecDepth 4000 in
unseal FieldTypeV2.fromSchema FieldTypeV2.fromSchemaObject in
/-- C3: for the `oneOf` input `[{type: const "a", data: $ref Foo}, {type:
const "b", data: {x: int}}, {type: const "c"}]` with no enclosing-object
properties, `TypeData::inline_struct_enum` succeeds and yields
`discriminator_field = "type"`, `content_field = "data"` and the variants
`[{"a", Ref(Foo)}, {"b", Struct([x])}, {"c", Ref(None)}]` in that order;
per variant, `get_discriminator` picks the one property whose schema carries
exactly one string enum value. -/
theorem C3_discriminated_union_inference :
    TypeDataV2.inlineStructEnum c3OneOf [] =
        .ok (.structEnum "type"
          (.adjacentlyTagged "data"
            [.mk "a" (.ref (some "Foo") none),
             .mk "b" (.struct [.mk "x" .int64 none none true false false none]),
             .mk "c" (.ref none none)])
          []) ∧
      getDiscriminator c3VariantAObj = .ok ("type", "a") ∧
      getDiscriminator c3VariantBObj = .ok ("type", "b") ∧
      getDiscriminator c3VariantCObj = .ok ("type", "c") := by
  exact ⟨rfl, rfl, rfl, rfl⟩

/-- The minimal OpenAPI operation of the C7 example: only an operationId. -/
def c7OpIn : OperationIn := { operationId := some "v1.message_attempt.endpoint.resend" }

/-- The extracted operation of the C7 example. -/
def c7Op : OperationV1 :=
  { id := "v1.message_attempt.endpoint.resend", name := "resend", description := none,
    deprecated := false, method := "post", path := "/x", pathParams := [],
    headerParams := [], queryParams := [], requestBodySchemaName := none,
    requestBodyAllOptional := false, responseBodySchemaName := none }

set_option maxRecDepth 4000 in
/-- C7: for operationId `v1.message_attempt.endpoint.resend`, the derived
resource path is `["message_attempt", "endpoint"]` and the operation name is
`resend`; inserting the operation into an empty resource tree creates the
top-level node named `message_attempt` and the leaf named
`message_attempt-endpoint` (each node's name is the dash-joined prefix up to
that node), with the operation appended at the leaf. -/
theorem C7_resource_path_and_display_name :
    parseOperationId "v1.message_attempt.endpoint.resend" =
        some (["message_attempt", "endpoint"], "resend") ∧
      OperationV1.fromOpenapi "/x" "post" c7OpIn [] true =
        .ok (["message_attempt", "endpoint"], c7Op) ∧
      addOpAtPath .nil "message_attempt" ["endpoint"] c7Op =
        .cons "message_attempt"
          (.mk "message_attempt" []
            (.cons "endpoint" (.mk "message_attempt-endpoint" [c7Op] .nil) .nil))
          .nil := by
  exact ⟨rfl, rfl, rfl⟩

/-- Top-level well-formedness needed for non-empty projections: a value whose
top-level constructor is `SchemaRef` must carry a non-empty name (container
projections always wrap in non-empty syntax, so only the top level matters). -/
def topRefNameNonempty : FieldTypeV2 → Prop
  | .schemaRef name _ => name ≠ ""
  | _ => True

/-- A concatenation with a non-empty left part is non-empty. -/
theorem prefixNeEmpty (a b : String) (h : a.length ≠ 0) : a ++ b ≠ "" := by
  intro e
  have hl := congrArg String.length e
  rw [String.length_append] at hl
  have h0 : String.length "" = 0 := rfl
  omega

/-- A concatenation with a non-empty right part is non-empty. -/
theorem suffixNeEmpty (a b : String) (h : b.length ≠ 0) : a ++ b ≠ "" := by
  intro e
  have hl := congrArg String.length e
  rw [String.length_append] at hl
  have h0 : String.length "" = 0 := rfl
  omega

/-- The C# projection never returns the empty string. -/
theorem toCsharp_ne_empty (ft : FieldTypeV2) (h : topRefNameNonempty ft) :
    FieldTypeV2.toCsharpTypename ft ≠ "" := by
  cases ft <;> simp only [FieldTypeV2.toCsharpTypename, topRefNameNonempty] at h ⊢ <;>
    first
      | decide
      | (apply suffixNeEmpty; decide)
      | (apply prefixNeEmpty; decide)
      | (simp only [filterSchemaRef]; split <;> first | decide | exact h)

/-- The Go projection never returns the empty string. -/
theorem toGo_ne_empty (ft : FieldTypeV2) (h : topRefNameNonempty ft) :
    FieldTypeV2.toGoTypename ft ≠ "" := by
  cases ft <;> simp only [FieldTypeV2.toGoTypename, topRefNameNonempty] at h ⊢ <;>
    first
      | decide
      | (apply suffixNeEmpty; decide)
      | (apply prefixNeEmpty; decide)
      | (simp only [filterSchemaRef]; split <;> first | decide | exact h)

/-- The Kotlin projection never returns the empty string. -/
theorem toKotlin_ne_empty (ft : FieldTypeV2) (h : topRefNameNonempty ft) :
    FieldTypeV2.toKotlinTypename ft ≠ "" := by
  cases ft <;> simp only [FieldTypeV2.toKotlinTypename, topRefNameNonempty] at h ⊢ <;>
    first
      | decide
      | (apply suffixNeEmpty; decide)
      | (apply prefixNeEmpty; decide)
      | (simp only [filterSchemaRef]; split <;> first | decide | exact h)

/-- The JS projection never returns the empty string. -/
theorem toJs_ne_empty (ft : FieldTypeV2) (h : topRefNameNonempty ft) :
    FieldTypeV2.toJsTypename ft ≠ "" := by
  cases ft <;> simp only [FieldTypeV2.toJsTypename, topRefNameNonempty] at h ⊢ <;>
    first
      | decide
      | (apply suffixNeEmpty; decide)
      | (apply prefixNeEmpty; decide)
      | (simp only [filterSchemaRef]; split <;> first | decide | exact h)

/-- The Rust projection never returns the empty string. -/
theorem toRust_ne_empty (ft : FieldTypeV2) (h : topRefNameNonempty ft) :
    FieldTypeV2.toRustTypename ft ≠ "" := by
  cases ft <;> simp only [FieldTypeV2.toRustTypename, topRefNameNonempty] at h ⊢ <;>
    first
      | decide
      | (apply suffixNeEmpty; decide)
      | (apply prefixNeEmpty; decide)
      | (simp only [filterSchemaRef]; split <;> first | decide | exact h)

/-- The Python projection never returns the empty string. -/
theorem toPython_ne_empty (ft : FieldTypeV2) (h : topRefNameNonempty ft) :
    FieldTypeV2.toPythonTypename ft ≠ "" := by
  cases ft <;> simp only [FieldTypeV2.toPythonTypename, topRefNameNonempty] at h ⊢ <;>
    first
      | decide
      | (apply suffixNeEmpty; decide)
      | (apply prefixNeEmpty; decide)
      | (simp only [filterSchemaRef]; split <;> first | decide | exact h)

/-- The Java projection never returns the empty string. -/
theorem toJava_ne_empty (ft : FieldTypeV2) (h : topRefNameNonempty ft) :
    FieldTypeV2.toJavaTypename ft ≠ "" := by
  cases ft <;> simp only [FieldTypeV2.toJavaTypename, topRefNameNonempty] at h ⊢ <;>
    first
      | decide
      | (apply suffixNeEmpty; decide)
      | (apply prefixNeEmpty; decide)
      | (simp only [filterSchemaRef]; split <;> first | decide | exact h)

/-- The PHP projection never returns the empty string. -/
theorem toPhp_ne_empty (ft : FieldTypeV2) (h : topRefNameNonempty ft) :
    FieldTypeV2.toPhpTypename ft ≠ "" := by
  cases ft <;> simp only [FieldTypeV2.toPhpTypename, topRefNameNonempty] at h ⊢ <;>
    first
      | decide
      | exact h

/-- The PHPDoc projection never returns the empty string. -/
theorem toPhpdoc_ne_empty (ft : FieldTypeV2) (h : topRefNameNonempty ft) :
    FieldTypeV2.toPhpdocTypename ft ≠ "" := by
  cases ft <;>
    simp only [FieldTypeV2.toPhpdocTypename, FieldTypeV2.toPhpTypename,
      topRefNameNonempty] at h ⊢ <;>
    first
      | decide
      | (apply suffixNeEmpty; decide)
      | exact h

/-- C8 counterexample: the Ruby projection is not total.  On
`FieldType::Bool` (and every variant other than `SchemaRef` / `StringConst`)
`to_ruby_typename` panics — modelled as `none` — so it is not the case that
every per-target projection returns a (non-empty) string for every
`FieldType` variant. -/
theorem C8_counterexample_ruby_panics : FieldTypeV2.toRubyTypename .bool = none := rfl

/-- C8 (amended): for every `FieldType` whose top-level constructor is not a
`SchemaRef` with an empty name, each of the C#, Go, Kotlin, JS, Rust, Python,
Java, PHP and PHPDoc projections is total and returns a non-empty string;
`Set{inner: String}` projects to `List<string>` in C#, `Set<String>` in
Java/Kotlin and `string[]` in JS.  The Ruby projection is partial: it returns
the referenced name for `SchemaRef` and panics (modelled `none`) on every
other variant. -/
theorem C8_projection_totality_amended :
    (∀ ft : FieldTypeV2, topRefNameNonempty ft →
        FieldTypeV2.toCsharpTypename ft ≠ "" ∧ FieldTypeV2.toGoTypename ft ≠ "" ∧
        FieldTypeV2.toKotlinTypename ft ≠ "" ∧ FieldTypeV2.toJsTypename ft ≠ "" ∧
        FieldTypeV2.toRustTypename ft ≠ "" ∧ FieldTypeV2.toPythonTypename ft ≠ "" ∧
        FieldTypeV2.toJavaTypename ft ≠ "" ∧ FieldTypeV2.toPhpTypename ft ≠ "" ∧
        FieldTypeV2.toPhpdocTypename ft ≠ "") ∧
      FieldTypeV2.toCsharpTypename (.set .string) = "List<string>" ∧
      FieldTypeV2.toJavaTypename (.set .string) = "Set<String>" ∧
      FieldTypeV2.toKotlinTypename (.set .string) = "Set<String>" ∧
      FieldTypeV2.toJsTypename (.set .string) = "string[]" ∧
      (∀ (name : String) (inner : Option TypeV2),
        FieldTypeV2.toRubyTypename (.schemaRef name inner) = some name) ∧
      FieldTypeV2.toRubyTypename .bool = none ∧
      FieldTypeV2.toRubyTypename .string = none := by
  refine ⟨?_, rfl, rfl, rfl, rfl, fun name inner => rfl, rfl, rfl⟩
  intro ft h
  exact ⟨toCsharp_ne_empty ft h, toGo_ne_empty ft h, toKotlin_ne_empty ft h,
    toJs_ne_empty ft h, toRust_ne_empty ft h, toPython_ne_empty ft h,
    toJava_ne_empty ft h, toPhp_ne_empty ft h, toPhpdoc_ne_empty ft h⟩

/-- C8 witness: the amended totality statement applied at the concrete value
`SchemaRef "Foo"`. -/
theorem C8_witness :
    topRefNameNonempty (.schemaRef "Foo" none) ∧
      FieldTypeV2.toCsharpTypename (.schemaRef "Foo" none) ≠ "" :=
  ⟨by simp only [topRefNameNonempty]; decide,
   (C8_projection_totality_amended.1 (.schemaRef "Foo" none)
     (by simp only [topRefNameNonempty]; decide)).1⟩

/-- Membership characterization of sorted-set insertion. -/
theorem mem_insertSorted (a x : String) (l : List String) :
    a ∈ insertSorted x l ↔ a = x ∨ a ∈ l := by
  induction l with
  | nil => simp [insertSorted]
  | cons y ys ih =>
    rw [insertSorted]
    split
    · simp
    · split
      · rename_i hxy
        subst hxy
        simp only [List.mem_cons]
        tauto
      · simp only [List.mem_cons, ih]
        tauto

/-- Folding optional sorted-set insertions over a list never introduces an
element that is neither in the accumulator nor produced by the extractor. -/
theorem notMem_foldl_insertOpt {α : Type} (g : α → Option String) (P : String) :
    ∀ (l : List α) (acc : List String), P ∉ acc → (∀ a ∈ l, g a ≠ some P) →
      P ∉ l.foldl
        (fun acc a =>
          match g a with
          | some s => insertSorted s acc
          | none => acc)
        acc := by
  intro l
  induction l with
  | nil => intro acc hacc _; simpa using hacc
  | cons a as ih =>
    intro acc hacc hall
    rw [List.foldl_cons]
    apply ih
    · cases hg : g a with
      | none => simpa [hg] using hacc
      | some s =>
        have hs : s ≠ P := fun e => (hall a (by simp)) (by rw [hg, e])
        simp only [hg, mem_insertSorted]
        intro hor
        cases hor with
        | inl he => exact hs he.symm
        | inr hm => exact hacc hm
    · intro b hb
      exact hall b (by simp [hb])

/-- The v2 `referenced_schema` never yields the carved-out name `Data`, no
matter how deeply the `SchemaRef` is nested in `List`/`Set`/`Map`. -/
theorem referencedSchema_ne_data :
    ∀ ft : FieldTypeV2, FieldTypeV2.referencedSchema ft ≠ some "Data"
  | .list inner => by
    rw [FieldTypeV2.referencedSchema]
    exact referencedSchema_ne_data inner
  | .set inner => by
    rw [FieldTypeV2.referencedSchema]
    exact referencedSchema_ne_data inner
  | .map inner => by
    rw [FieldTypeV2.referencedSchema]
    exact referencedSchema_ne_data inner
  | .schemaRef name inner => by
    rw [FieldTypeV2.referencedSchema]
    split
    · exact Option.noConfusion
    · intro h
      rename_i hne
      exact hne (Option.some.injEq _ _ ▸ h)
  | .bool => by simp [FieldTypeV2.referencedSchema]
  | .int16 => by simp [FieldTypeV2.referencedSchema]
  | .uint16 => by simp [FieldTypeV2.referencedSchema]
  | .int32 => by simp [FieldTypeV2.referencedSchema]
  | .uint32 => by simp [FieldTypeV2.referencedSchema]
  | .int64 => by simp [FieldTypeV2.referencedSchema]
  | .uint64 => by simp [FieldTypeV2.referencedSchema]
  | .string => by simp [FieldTypeV2.referencedSchema]
  | .dateTime => by simp [FieldTypeV2.referencedSchema]
  | .uri => by simp [FieldTypeV2.referencedSchema]
  | .jsonObject => by simp [FieldTypeV2.referencedSchema]
  | .stringConst _ => by simp [FieldTypeV2.referencedSchema]

/-- Field-based referenced components never contain `Data`. -/
theorem data_notMem_fieldsReferencedSchemas (fields : List FieldV2) :
    "Data" ∉ fieldsReferencedSchemas fields := by
  rw [fieldsReferencedSchemas]
  exact notMem_foldl_insertOpt (fun f => f.type.referencedSchema) "Data" fields []
    (by simp) (fun f _ => referencedSchema_ne_data f.type)

/-- A `$ref Data` property schema (the carve-out name used literally). -/
def dataRefSchema : Schema :=
  .obj { reference := some "#/components/schemas/Data" }

/-- A `oneOf` variant whose content is `$ref Data`. -/
def c9VariantObj : ObjectValidation :=
  { properties := [("data", dataRefSchema), ("type", typeConstSchema "a")],
    required := ["data", "type"] }

/-- The C9 variant as a schema. -/
def c9VariantSchema : Schema :=
  .obj { instanceType := some (.single .object), object := some c9VariantObj }

/-- Subschema validation carrying the C9 `oneOf`. -/
def c9SubValidation : SubschemaValidation :=
  { oneOf := some [c9VariantSchema] }

/-- Component schema `A`: an object whose `oneOf` has a `$ref Data` variant. -/
def c9SchemaA : Schema :=
  .obj { instanceType := some (.single .object), object := some {},
         subschemas := some c9SubValidation }

/-- Component schema `Data`: a plain string enum. -/
def c9SchemaData : Schema :=
  .obj { instanceType := some (.single .string), enumValues := some [.str "x", .str "y"] }

set_option maxRecDepth 8000 in
unseal tgLoop FieldTypeV2.fromSchema FieldTypeV2.fromSchemaObject in
/-- C9 counterexample: the name `Data` CAN be added to the Type Graph
Builder's frontier and resolved — `StructEnumRepr::referenced_components`
passes a struct-enum `Ref` variant's `schema_ref` through without the `Data`
carve-out (only `referenced_schema` filters it), so seeding a pool where `A`'s
`oneOf` variant content is `$ref Data` makes the builder look up and resolve
`Data` itself.  Moreover, at the projection layer PHP maps a `SchemaRef` named
`Data` to the literal name `Data`, not a generic JSON-object fallback. -/
theorem C9_counterexample_data_reaches_frontier :
    processedSchemas ["A"] [("A", c9SchemaA), ("Data", c9SchemaData)] = ["A", "Data"] ∧
      FieldTypeV2.toPhpTypename (.schemaRef "Data" none) = "Data" := by
  exact ⟨rfl, rfl⟩

/-- C9 (amended): `referenced_schema` never yields `Data` (also when nested in
`List`/`Set`/`Map`), so field-based references never put `Data` into the
frontier; however, a struct-enum `Ref` variant's `schema_ref` bypasses the
carve-out.  At the projection layer, the C#, Go, Kotlin, JS, Rust, Python and
Java projections map a `SchemaRef` named `Data` to their generic JSON-object
fallback via `filter_schema_ref`, while PHP and Ruby project the literal
name. -/
theorem C9_data_carveout_amended :
    (∀ ft : FieldTypeV2, FieldTypeV2.referencedSchema ft ≠ some "Data") ∧
      (∀ fields : List FieldV2, "Data" ∉ fieldsReferencedSchemas fields) ∧
      FieldTypeV2.toCsharpTypename (.schemaRef "Data" none) = "Object" ∧
      FieldTypeV2.toGoTypename (.schemaRef "Data" none) = "map[string]any" ∧
      FieldTypeV2.toKotlinTypename (.schemaRef "Data" none) = "Map<String,Any>" ∧
      FieldTypeV2.toJsTypename (.schemaRef "Data" none) = "any" ∧
      FieldTypeV2.toRustTypename (.schemaRef "Data" none) = "serde_json::Value" ∧
      FieldTypeV2.toPythonTypename (.schemaRef "Data" none) = "t.Dict[str, t.Any]" ∧
      FieldTypeV2.toJavaTypename (.schemaRef "Data" none) = "Object" ∧
      FieldTypeV2.toPhpTypename (.schemaRef "Data" none) = "Data" ∧
      FieldTypeV2.toRubyTypename (.schemaRef "Data" none) = some "Data" :=
  ⟨referencedSchema_ne_data, data_notMem_fieldsReferencedSchemas,
   rfl, rfl, rfl, rfl, rfl, rfl, rfl, rfl, rfl⟩

/-- C9 witness: the amended carve-out statement applied at a `SchemaRef`
named `Data` nested inside a `List`, where `referenced_schema` evaluates to
`none`. -/
theorem C9_witness :
    FieldTypeV2.referencedSchema (.list (.schemaRef "Data" none)) ≠ some "Data" ∧
      FieldTypeV2.referencedSchema (.list (.schemaRef "Data" none)) = none :=
  ⟨C9_data_carveout_amended.1 (.list (.schemaRef "Data" none)), rfl⟩

/-- Helper for C4: a successful extraction implies the operationId parses
(i.e. matches `v1.<seg>(.<seg>)*.<opname>` with at least one resource path
segment), and the parse determines the resource path and operation name. -/
theorem fromOpenapi_ok_implies_id_parses :
    ∀ (path method : String) (op : OperationIn) (componentSchemas : List (String × Schema))
      (includeHidden : Bool) (resPath : List String) (o : OperationV1),
      OperationV1.fromOpenapi path method op componentSchemas includeHidden =
          .ok (resPath, o) →
        ∃ opId, op.operationId = some opId ∧ parseOperationId opId = some (resPath, o.name) := by
  intro path method op componentSchemas includeHidden resPath o h
  rw [OperationV1.fromOpenapi] at h
  cases hid : op.operationId with
  | none => rw [hid] at h; exact absurd h (by simp [throw, throwThe, MonadExceptOf.throw])
  | some opId =>
    rw [hid] at h
    dsimp only at h
    refine ⟨opId, rfl, ?_⟩
    split at h
    · exact absurd h (by simp [throw, throwThe, MonadExceptOf.throw, Bind.bind, Except.bind])
    · cases hp : parseOperationId opId with
      | none => rw [hp] at h; exact absurd h (by simp [throw, throwThe, MonadExceptOf.throw])
      | some pr =>
        obtain ⟨rp, nm⟩ := pr
        rw [hp] at h
        dsimp only at h
        cases hq : processParams method op.parameters with
        | error e => rw [hq] at h; simp [Bind.bind, Except.bind, pure, Except.pure] at h
        | ok triple =>
          obtain ⟨ps, hs, qs⟩ := triple
          rw [hq] at h
          simp only [Bind.bind, Except.bind, pure, Except.pure] at h
          cases hb : computeReqBodyAllOptional op.requestBody componentSchemas with
          | error e => rw [hb] at h; simp [Bind.bind, Except.bind, pure, Except.pure] at h
          | ok allOpt =>
            rw [hb] at h
            dsimp only at h
            cases hn : computeReqBodySchemaName op.requestBody with
            | error e => rw [hn] at h; simp [Bind.bind, Except.bind, pure, Except.pure] at h
            | ok reqName =>
              rw [hn] at h
              dsimp only at h
              cases hresp : op.responses with
              | none =>
                rw [hresp] at h
                dsimp only at h
                simp only [Except.ok.injEq, Prod.mk.injEq] at h
                obtain ⟨hrp, ho⟩ := h
                subst hrp
                rw [← ho]
              | some r =>
                rw [hresp] at h
                dsimp only at h
                cases hr : extractResponseSchemaName r with
                | error e =>
                  rw [hr] at h
                  simp [Bind.bind, Except.bind, pure, Except.pure] at h
                | ok respName =>
                  rw [hr] at h
                  simp only [Bind.bind, Except.bind, pure, Except.pure, Except.ok.injEq,
                    Prod.mk.injEq] at h
                  obtain ⟨hrp, ho⟩ := h
                  subst hrp
                  rw [← ho]


/-- Helper for C4: a missing or non-matching operationId always makes the
extractor skip the operation (never a fatal error, never a success). -/
theorem fromOpenapi_skips_bad_id :
    ∀ (path method : String) (op : OperationIn) (componentSchemas : List (String × Schema))
      (includeHidden : Bool),
      (op.operationId = none ∨
        ∃ opId, op.operationId = some opId ∧ parseOperationId opId = none) →
      OperationV1.fromOpenapi path method op componentSchemas includeHidden =
        .error .skip := by
  intro path method op componentSchemas includeHidden hcond
  rw [OperationV1.fromOpenapi]
  cases hcond with
  | inl hnone =>
    rw [hnone]
    rfl
  | inr hex =>
    obtain ⟨opId, hid, hp⟩ := hex
    rw [hid]
    dsimp only
    split
    · simp [Bind.bind, Except.bind, throw, throwThe, MonadExceptOf.throw]
    · rw [hp]
      rfl

/-- An operation with a well-formed operationId but an unsupported (`$ref`)
parameter: extracted into nothing (skipped) despite the matching id. -/
def c4BadParamOp : OperationIn :=
  { operationId := some "v1.foo.bar",
    parameters := [.reference "#/components/parameters/X"] }

/-- C4 counterexample: extraction is not an if-and-only-if on the operationId
pattern.  `c4BadParamOp` has operationId `v1.foo.bar`, which matches the
pattern (it parses to resource path `["foo"]` and op name `"bar"`), yet the
operation is skipped because of its unsupported `$ref` parameter — so a
matching operationId does not imply the operation is placed in the tree. -/
theorem C4_counterexample_match_but_skipped :
    OperationV1.fromOpenapi "/p" "get" c4BadParamOp [] true = .error .skip ∧
      parseOperationId "v1.foo.bar" = some (["foo"], "bar") := by
  exact ⟨rfl, rfl⟩

/-- C4 (amended): an operation is placed in the resource tree only if its
operationId matches `v1.<seg>(.<seg>)*.<opname>` (parsed as version `v1`, a
non-empty resource path, and an op name, which also determine the resource
path and operation name); and any operation whose operationId is missing or
does not match is skipped with a log — never a fatal error aborting the run.
A matching operationId does not guarantee placement: later per-operation
checks (hidden flag, unsupported parameters or bodies) can still skip or
reject it. -/
theorem C4_operation_id_gate_amended :
    (∀ (path method : String) (op : OperationIn) (componentSchemas : List (String × Schema))
        (includeHidden : Bool) (resPath : List String) (o : OperationV1),
        OperationV1.fromOpenapi path method op componentSchemas includeHidden =
            .ok (resPath, o) →
          ∃ opId, op.operationId = some opId ∧
            parseOperationId opId = some (resPath, o.name)) ∧
      (∀ (path method : String) (op : OperationIn)
          (componentSchemas : List (String × Schema)) (includeHidden : Bool),
        (op.operationId = none ∨
          ∃ opId, op.operationId = some opId ∧ parseOperationId opId = none) →
        OperationV1.fromOpenapi path method op componentSchemas includeHidden =
          .error .skip) :=
  ⟨fromOpenapi_ok_implies_id_parses, fromOpenapi_skips_bad_id⟩

/-- A minimal operation with a parsable id, used by the C4 witness. -/
def c4GoodOp : OperationIn := { operationId := some "v1.app.list" }

/-- The extraction result of `c4GoodOp`. -/
def c4GoodOpResult : OperationV1 :=
  { id := "v1.app.list", name := "list", description := none, deprecated := false,
    method := "get", path := "/x", pathParams := [], headerParams := [], queryParams := [],
    requestBodySchemaName := none, requestBodyAllOptional := false,
    responseBodySchemaName := none }

/-- An operation whose id has too few segments, used by the C4 witness. -/
def c4BadIdOp : OperationIn := { operationId := some "v1.x" }

set_option maxRecDepth 4000 in
/-- C4 witness: the amended gate applied to a concrete successful extraction
and to a concrete too-short operationId. -/
theorem C4_witness :
    (∃ opId, c4GoodOp.operationId = some opId ∧
        parseOperationId opId = some (["app"], c4GoodOpResult.name)) ∧
      OperationV1.fromOpenapi "/x" "get" c4BadIdOp [] true = .error .skip :=
  ⟨C4_operation_id_gate_amended.1 "/x" "get" c4GoodOp [] true ["app"] c4GoodOpResult
     (by rfl),
   C4_operation_id_gate_amended.2 "/x" "get" c4BadIdOp [] true
     (Or.inr ⟨"v1.x", rfl, by rfl⟩)⟩

/-- The free function `response_body_schema_name` never skips: all its failure
paths are panics (fatal). -/
theorem responseBody_no_skip (resp : RefOr Response) :
    responseBodySchemaName resp ≠ .error .skip := by
  cases resp with
  | reference r => simp [responseBodySchemaName]
  | item rb =>
    rw [responseBodySchemaName]
    split
    · simp
    · split
      · simp
      · split
        · split
          · split
            · simp
            · split <;> simp
          · simp
        · simp

theorem checkSame_all_eq (sn : Option String) :
    ∀ rest : List (StatusCode × RefOr Response),
      (∀ p ∈ rest, responseBodySchemaName p.2 = .ok sn) →
      checkSameSchemaName sn rest = .ok sn := by
  intro rest
  induction rest with
  | nil => intro _; rfl
  | cons p ps ih =>
    intro hall
    rw [checkSameSchemaName]
    rw [hall p (by simp)]
    simp only [Bind.bind, Except.bind]
    rw [if_pos trivial]
    exact ih (fun q hq => hall q (by simp [hq]))

theorem checkSame_mismatch (sn : Option String) :
    ∀ (rest : List (StatusCode × RefOr Response)) (n2 : Option String),
      (∃ p ∈ rest, responseBodySchemaName p.2 = .ok n2) → n2 ≠ sn →
      checkSameSchemaName sn rest = .error .fatal := by
  intro rest
  induction rest with
  | nil => intro n2 hex _; simp at hex
  | cons p ps ih =>
    intro n2 hex hne
    rw [checkSameSchemaName]
    cases hpr : responseBodySchemaName p.2 with
    | error e =>
      cases e with
      | skip => exact absurd hpr (responseBody_no_skip p.2)
      | fatal => simp [Bind.bind, Except.bind]
    | ok n =>
      simp only [Bind.bind, Except.bind]
      by_cases hn : n = sn
      · rw [if_pos hn]
        obtain ⟨q, hq, hqr⟩ := hex
        rcases List.mem_cons.mp hq with hq1 | hq2
        · subst hq1
          rw [hpr] at hqr
          injection hqr with he
          exact absurd (he ▸ hn) hne
        · exact ih n2 ⟨q, hq2, hqr⟩ hne
      · rw [if_neg hn]

/-- No 2xx entry at all: the `expect` on the first success response panics. -/
theorem extractResponse_no2xx_fatal : ∀ r : Responses, r.default = none → r.extensions = [] →
    (∀ p ∈ r.responses, isSuccessStatus p.1 = false) →
    extractResponseSchemaName r = .error .fatal := by
  intro r hdef hext hno
  have hf : r.responses.filter (fun p => isSuccessStatus p.1) = [] := by
    rw [List.filter_eq_nil_iff]
    intro a ha
    simp [hno a ha]
  rw [extractResponseSchemaName, hdef, hext, hf]
  rfl

theorem extractResponse_allSame_ok : ∀ (r : Responses) (foo : Option String)
    (e1 : StatusCode × RefOr Response) (rest : List (StatusCode × RefOr Response)),
    r.default = none → r.extensions = [] →
    r.responses.filter (fun p => isSuccessStatus p.1) = e1 :: rest →
    (∀ p ∈ e1 :: rest, responseBodySchemaName p.2 = .ok foo) →
    extractResponseSchemaName r = .ok foo := by
  intro r foo e1 rest hdef hext hfilter hall
  rw [extractResponseSchemaName, hdef, hext, hfilter]
  dsimp only
  rw [hall e1 (by simp)]
  simp only [Bind.bind, Except.bind]
  exact checkSame_all_eq foo rest (fun q hq => hall q (by simp [hq]))

theorem extractResponse_mismatch_fatal : ∀ (r : Responses) (e1 : StatusCode × RefOr Response)
    (rest : List (StatusCode × RefOr Response)) (n1 n2 : Option String),
    r.default = none → r.extensions = [] →
    r.responses.filter (fun p => isSuccessStatus p.1) = e1 :: rest →
    responseBodySchemaName e1.2 = .ok n1 →
    (∃ p ∈ rest, responseBodySchemaName p.2 = .ok n2) → n1 ≠ n2 →
    extractResponseSchemaName r = .error .fatal := by
  intro r e1 rest n1 n2 hdef hext hfilter h1 hex hne
  rw [extractResponseSchemaName, hdef, hext, hfilter]
  dsimp only
  rw [h1]
  simp only [Bind.bind, Except.bind]
  exact checkSame_mismatch n1 rest n2 hex (Ne.symm hne)

/-- C5: for an operation's responses (with no `default` response and no
extensions, both of which are asserted): if no 2xx status entry exists,
extraction fails fatally; if the 2xx entries (one or several) all resolve to
the same schema name, that name is the result; if a later 2xx entry resolves
to a different name than the first, the run is rejected fatally. -/
theorem C5_response_consistency :
    (∀ r : Responses, r.default = none → r.extensions = [] →
        (∀ p ∈ r.responses, isSuccessStatus p.1 = false) →
        extractResponseSchemaName r = .error .fatal) ∧
      (∀ (r : Responses) (foo : Option String)
          (e1 : StatusCode × RefOr Response) (rest : List (StatusCode × RefOr Response)),
        r.default = none → r.extensions = [] →
        r.responses.filter (fun p => isSuccessStatus p.1) = e1 :: rest →
        (∀ p ∈ e1 :: rest, responseBodySchemaName p.2 = .ok foo) →
        extractResponseSchemaName r = .ok foo) ∧
      (∀ (r : Responses) (e1 : StatusCode × RefOr Response)
          (rest : List (StatusCode × RefOr Response)) (n1 n2 : Option String),
        r.default = none → r.extensions = [] →
        r.responses.filter (fun p => isSuccessStatus p.1) = e1 :: rest →
        responseBodySchemaName e1.2 = .ok n1 →
        (∃ p ∈ rest, responseBodySchemaName p.2 = .ok n2) → n1 ≠ n2 →
        extractResponseSchemaName r = .error .fatal) :=
  ⟨extractResponse_no2xx_fatal, extractResponse_allSame_ok, extractResponse_mismatch_fatal⟩

/-- A 200-style response whose JSON body is `$ref Foo`. -/
def fooRefResponse : RefOr Response :=
  .item { content := [("application/json", { schema := some fooRefSchema })] }

/-- A response whose JSON body is `$ref Bar`. -/
def barRefResponse : RefOr Response :=
  .item { content := [("application/json",
    { schema := some (.obj { reference := some "#/components/schemas/Bar" }) })] }

/-- Responses with 200 and 201 both pointing at schema `Foo`. -/
def c5RespOk : Responses :=
  { responses := [(.code 200, fooRefResponse), (.code 201, fooRefResponse)] }

/-- Responses with only a 400 entry (no success response). -/
def c5RespNo2xx : Responses :=
  { responses := [(.code 400, fooRefResponse)] }

/-- Responses with 200 pointing at `Foo` but 201 pointing at `Bar`. -/
def c5RespMismatch : Responses :=
  { responses := [(.code 200, fooRefResponse), (.code 201, barRefResponse)] }

/-- C5 witness: the three response-consistency statements applied at concrete
inputs: a 400-only operation is fatal, 200+201 both at `Foo` yields
`Some "Foo"`, and 200 at `Foo` with 201 at `Bar` is fatal. -/
theorem C5_witness :
    extractResponseSchemaName c5RespNo2xx = .error .fatal ∧
      extractResponseSchemaName c5RespOk = .ok (some "Foo") ∧
      extractResponseSchemaName c5RespMismatch = .error .fatal :=
  ⟨C5_response_consistency.1 c5RespNo2xx rfl rfl
     (by intro p hp; simp only [c5RespNo2xx, List.mem_singleton] at hp; subst hp; rfl),
   C5_response_consistency.2.1 c5RespOk (some "Foo") (.code 200, fooRefResponse)
     [(.code 201, fooRefResponse)] rfl rfl (by rfl)
     (by
       intro p hp
       simp only [List.mem_cons, List.mem_singleton, List.not_mem_nil, or_false] at hp
       cases hp with
       | inl h1 => subst h1; rfl
       | inr h2 => subst h2; rfl),
   C5_response_consistency.2.2 c5RespMismatch (.code 200, fooRefResponse)
     [(.code 201, barRefResponse)] (some "Foo") (some "Bar") rfl rfl (by rfl) (by rfl)
     ⟨(.code 201, barRefResponse), List.mem_singleton.mpr rfl, by rfl⟩ (by decide)⟩

/-- Membership in the per-query-parameter step of
`Resource::referenced_components`. -/
theorem mem_qpInsert (n : String) (a : List String) (p : QueryParamV1) :
    n ∈ qpInsert a p ↔ p.type = .schemaRef n ∨ n ∈ a := by
  cases hpt : p.type <;> simp [qpInsert, hpt, mem_insertSorted] <;> tauto

theorem mem_optInsert (n : String) (a : List String) (o : Option String) :
    n ∈ optInsert a o ↔ o = some n ∨ n ∈ a := by
  cases o <;> simp [optInsert, mem_insertSorted] <;> tauto

theorem mem_foldl_qpInsert (n : String) :
    ∀ (qps : List QueryParamV1) (a : List String),
      n ∈ qps.foldl qpInsert a ↔ (∃ qp ∈ qps, qp.type = .schemaRef n) ∨ n ∈ a := by
  intro qps
  induction qps with
  | nil => simp
  | cons p ps ih =>
    intro a
    rw [List.foldl_cons, ih, mem_qpInsert]
    simp only [List.mem_cons]
    aesop

theorem mem_opInsert (n : String) (a : List String) (op : OperationV1) :
    n ∈ opInsert a op ↔
      (∃ qp ∈ op.queryParams, qp.type = .schemaRef n) ∨
        op.requestBodySchemaName = some n ∨ op.responseBodySchemaName = some n ∨ n ∈ a := by
  rw [opInsert, mem_optInsert, mem_optInsert, mem_foldl_qpInsert]
  aesop

theorem mem_foldl_opInsert (n : String) :
    ∀ (ops : List OperationV1) (a : List String),
      n ∈ ops.foldl opInsert a ↔
        (∃ op ∈ ops, (∃ qp ∈ op.queryParams, qp.type = .schemaRef n) ∨
          op.requestBodySchemaName = some n ∨ op.responseBodySchemaName = some n) ∨ n ∈ a := by
  intro ops
  induction ops with
  | nil => simp
  | cons op ops ih =>
    intro a
    rw [List.foldl_cons, ih, mem_opInsert]
    simp only [List.mem_cons]
    aesop

theorem mem_leaf_referencedComponents (n rName : String) (ops : List OperationV1) :
    n ∈ (ResourceV1.mk rName ops .nil).referencedComponents ↔
      ∃ op ∈ ops, (∃ qp ∈ op.queryParams, qp.type = .schemaRef n) ∨
        op.requestBodySchemaName = some n ∨ op.responseBodySchemaName = some n := by
  rw [ResourceV1.referencedComponents, ResourceV1.refCompsAcc]
  rw [SubresourcesV1.refCompsAcc]
  rw [mem_foldl_opInsert]
  simp

/-- A single-operation leaf resource whose only query parameter has the given
field type and which has no request/response body schema names. -/
def containerQueryOp (ty : FieldTypeV1) : OperationV1 :=
  { id := "v1.r.op", name := "op", description := none, deprecated := false, method := "get",
    path := "/r", pathParams := [], headerParams := [],
    queryParams := [{ name := "q", description := none, required := false, type := ty }],
    requestBodySchemaName := none, requestBodyAllOptional := false,
    responseBodySchemaName := none }

/-- C10: when collecting referenced schema names from a resource, a query
parameter contributes a name exactly when its `FieldType` is a top-level
`SchemaRef` (request-body and response-body names always contribute); a schema
referenced only inside a container query-parameter type (`List`, `Set` or
`Map` of `SchemaRef`) is not added to the resource's referenced-components
set, even though `FieldType::referenced_schema` still reports it as a
reference. -/
theorem C10_query_param_seeding :
    (∀ (n rName : String) (ops : List OperationV1),
        n ∈ (ResourceV1.mk rName ops .nil).referencedComponents ↔
          ∃ op ∈ ops,
            (∃ qp ∈ op.queryParams, qp.type = .schemaRef n) ∨
              op.requestBodySchemaName = some n ∨ op.responseBodySchemaName = some n) ∧
      (∀ n : String,
        n ∉ (ResourceV1.mk "r" [containerQueryOp (.list (.schemaRef n))]
              .nil).referencedComponents ∧
          n ∉ (ResourceV1.mk "r" [containerQueryOp (.set (.schemaRef n))]
              .nil).referencedComponents ∧
          n ∉ (ResourceV1.mk "r" [containerQueryOp (.map (.schemaRef n))]
              .nil).referencedComponents ∧
          n ∈ (ResourceV1.mk "r" [containerQueryOp (.schemaRef n)]
              .nil).referencedComponents ∧
          FieldTypeV1.referencedSchema (.list (.schemaRef n)) = some n) := by
  refine ⟨fun n rName ops => mem_leaf_referencedComponents n rName ops, fun n => ?_⟩
  refine ⟨?_, ?_, ?_, ?_, rfl⟩ <;>
    simp [mem_leaf_referencedComponents, containerQueryOp]

/-- An operation referencing `Foo` through its request body only. -/
def c10BodyOp : OperationV1 :=
  { id := "v1.r.op2", name := "op2", description := none, deprecated := false,
    method := "post", path := "/r", pathParams := [], headerParams := [], queryParams := [],
    requestBodySchemaName := some "Foo", requestBodyAllOptional := false,
    responseBodySchemaName := none }

/-- C10 witness: the seeding characterization applied at concrete resources —
a request-body reference to `Foo` is collected, a `List(SchemaRef Bar)` query
parameter is not. -/
theorem C10_witness :
    "Foo" ∈ (ResourceV1.mk "r" [c10BodyOp] .nil).referencedComponents ∧
      "Bar" ∉ (ResourceV1.mk "r" [containerQueryOp (.list (.schemaRef "Bar"))]
          .nil).referencedComponents :=
  ⟨(C10_query_param_seeding.1 "Foo" "r" [c10BodyOp]).mpr
     ⟨c10BodyOp, by simp, Or.inr (Or.inl rfl)⟩,
   (C10_query_param_seeding.2 "Bar").1⟩

/-- Keyed removal fails exactly when the key is absent from the pool. -/
theorem removeFirstKey_none_iff {α : Type} (k : String) :
    ∀ l : List (String × α), removeFirstKey k l = none ↔ k ∉ l.map Prod.fst := by
  intro l
  induction l with
  | nil => simp [removeFirstKey]
  | cons hd tl ih =>
    obtain ⟨k0, v0⟩ := hd
    rw [removeFirstKey]
    split
    · rename_i hk
      subst hk
      simp
    · rename_i hk
      cases htl : removeFirstKey k tl with
      | none =>
        dsimp only
        simp only [List.map_cons, List.mem_cons, true_iff]
        have hnotin := (ih.mp htl)
        intro hor
        cases hor with
        | inl he => exact hk he.symm
        | inr hm => exact hnotin hm
      | some p =>
        obtain ⟨v1, tl1⟩ := p
        dsimp only
        simp only [List.map_cons, List.mem_cons]
        constructor
        · intro he
          cases he
        · intro hno
          exfalso
          have hmem : k ∈ tl.map Prod.fst := by
            by_contra hn
            rw [ih.mpr hn] at htl
            cases htl
          exact hno (Or.inr hmem)

/-- The removed entry was in the pool. -/
theorem removeFirstKey_mem {α : Type} (k : String) :
    ∀ (l : List (String × α)) (v : α) (l' : List (String × α)),
      removeFirstKey k l = some (v, l') → (k, v) ∈ l := by
  intro l
  induction l with
  | nil => intro v l' h; simp [removeFirstKey] at h
  | cons hd tl ih =>
    intro v l' h
    obtain ⟨k0, v0⟩ := hd
    rw [removeFirstKey] at h
    split at h
    · rename_i hk
      subst hk
      simp only [Option.some.injEq, Prod.mk.injEq] at h
      obtain ⟨hv, _⟩ := h
      subst hv
      simp
    · cases htl : removeFirstKey k tl with
      | none => rw [htl] at h; cases h
      | some p =>
        obtain ⟨v1, tl1⟩ := p
        rw [htl] at h
        dsimp only at h
        simp only [Option.some.injEq, Prod.mk.injEq] at h
        obtain ⟨hv, _⟩ := h
        subst hv
        exact List.mem_cons_of_mem _ (ih v1 tl1 htl)

/-- The pool is a permutation of the removed entry plus the remainder. -/
theorem removeFirstKey_perm {α : Type} (k : String) :
    ∀ (l : List (String × α)) (v : α) (l' : List (String × α)),
      removeFirstKey k l = some (v, l') → l.Perm ((k, v) :: l') := by
  intro l
  induction l with
  | nil => intro v l' h; simp [removeFirstKey] at h
  | cons hd tl ih =>
    intro v l' h
    obtain ⟨k0, v0⟩ := hd
    rw [removeFirstKey] at h
    split at h
    · rename_i hk
      subst hk
      simp only [Option.some.injEq, Prod.mk.injEq] at h
      obtain ⟨hv, hl⟩ := h
      subst hv
      subst hl
      exact List.Perm.refl _
    · cases htl : removeFirstKey k tl with
      | none => rw [htl] at h; cases h
      | some p =>
        obtain ⟨v1, tl1⟩ := p
        rw [htl] at h
        dsimp only at h
        simp only [Option.some.injEq, Prod.mk.injEq] at h
        obtain ⟨hv, hl⟩ := h
        subst hl
        have hp : tl.Perm ((k, v1) :: tl1) := ih v1 tl1 htl
        rw [hv] at hp
        exact (hp.cons (k0, v0)).trans (List.Perm.swap (k, v) (k0, v0) tl1)

/-- In a pool with unique keys, every entry can be removed by its key. -/
theorem removeFirstKey_exists_of_mem {α : Type} (k : String) (v : α) :
    ∀ l : List (String × α), (l.map Prod.fst).Nodup → (k, v) ∈ l →
      ∃ l', removeFirstKey k l = some (v, l') := by
  intro l
  induction l with
  | nil => intro _ hm; simp at hm
  | cons hd tl ih =>
    intro hnd hm
    obtain ⟨k0, v0⟩ := hd
    rw [List.map_cons, List.nodup_cons] at hnd
    obtain ⟨hk0, hnd2⟩ := hnd
    rw [removeFirstKey]
    by_cases hk : k0 = k
    · subst hk
      rcases List.mem_cons.mp hm with h1 | h2
      · simp only [Prod.mk.injEq] at h1
        obtain ⟨_, hv⟩ := h1
        subst hv
        exact ⟨tl, by rw [if_pos rfl]⟩
      · exfalso
        exact hk0 (List.mem_map.mpr ⟨(k0, v), h2, rfl⟩)
    · rcases List.mem_cons.mp hm with h1 | h2
      · exfalso
        simp only [Prod.mk.injEq] at h1
        exact hk h1.1.symm
      · obtain ⟨tl', htl⟩ := ih hnd2 h2
        rw [if_neg hk, htl]
        exact ⟨(k0, v0) :: tl', rfl⟩


/-- In a pool with unique keys, removal preserves key uniqueness, removes the
key entirely, and shrinks the key set. -/
theorem removeFirstKey_some_facts {α : Type} (k : String) (l : List (String × α)) (v : α)
    (l' : List (String × α)) (hnd : (l.map Prod.fst).Nodup)
    (h : removeFirstKey k l = some (v, l')) :
    (l'.map Prod.fst).Nodup ∧ k ∉ l'.map Prod.fst ∧
      ∀ x ∈ l'.map Prod.fst, x ∈ l.map Prod.fst := by
  have hkp : (l.map Prod.fst).Perm (k :: l'.map Prod.fst) := by
    have := (removeFirstKey_perm k l v l' h).map Prod.fst
    simpa using this
  have hnd2 : (k :: l'.map Prod.fst).Nodup := hkp.nodup_iff.mp hnd
  rw [List.nodup_cons] at hnd2
  exact ⟨hnd2.2, hnd2.1, fun x hx => hkp.mem_iff.mpr (List.mem_cons_of_mem _ hx)⟩

/-- Invariant of the builder loop: in a pool with unique keys, the trace of
pool hits has no duplicates (each schema is looked up and converted at most
once) and mentions only keys of the pool.  By strong induction on the pool
size with an inner induction on the frontier. -/
theorem tgLoop_trace_aux :
    ∀ (n : Nat) (schemas : List (String × Schema)), schemas.length ≤ n →
      (schemas.map Prod.fst).Nodup →
      ∀ (frontier : List String) (types : TypesV2),
        (tgLoop schemas frontier types).2.Nodup ∧
          ∀ x ∈ (tgLoop schemas frontier types).2, x ∈ schemas.map Prod.fst := by
  intro n
  induction n using Nat.strong_induction_on with
  | _ n ih =>
    intro schemas hlen hnd frontier
    induction frontier with
    | nil => intro types; simp [tgLoop]
    | cons c rest ihf =>
      intro types
      have key :
          ∀ (s : Schema) (schemas' : List (String × Schema)),
            removeFirstKey c schemas = some (s, schemas') →
            ∀ (frontier2 : List String) (types2 : TypesV2),
              (c :: (tgLoop schemas' frontier2 types2).2).Nodup ∧
                ∀ x ∈ c :: (tgLoop schemas' frontier2 types2).2, x ∈ schemas.map Prod.fst := by
        intro s schemas' hrm frontier2 types2
        obtain ⟨hnd', hknotin, hsub⟩ := removeFirstKey_some_facts c schemas s schemas' hnd hrm
        have hlt : schemas'.length < n :=
          Nat.lt_of_lt_of_le (removeFirstKey_length c schemas s schemas' hrm) hlen
        have hcmem : c ∈ schemas.map Prod.fst :=
          List.mem_map.mpr ⟨(c, s), removeFirstKey_mem c schemas s schemas' hrm, rfl⟩
        have hrec := ih schemas'.length hlt schemas' (Nat.le_refl _) hnd' frontier2 types2
        constructor
        · rw [List.nodup_cons]
          exact ⟨fun hc => hknotin (hrec.2 c hc), hrec.1⟩
        · intro x hx
          rcases List.mem_cons.mp hx with h1 | h2
          · subst h1; exact hcmem
          · exact hsub x (hrec.2 x h2)
      rw [tgLoop]
      split
      · exact ihf types
      · rename_i s schemas' hrm
        split
        · exact key _ _ hrm rest types
        · split
          · exact key _ _ hrm rest types
          · exact key _ _ hrm _ _


/-- Unfolding equation of the builder loop: empty frontier. -/
theorem tgLoop_nil (schemas : List (String × Schema)) (types : TypesV2) :
    tgLoop schemas [] types = (types, []) := by
  rw [tgLoop]

/-- Unfolding equation of the builder loop: pending name not in the pool
(warn and continue). -/
theorem tgLoop_cons_none (schemas : List (String × Schema)) (c : String) (rest : List String)
    (types : TypesV2) (h : removeFirstKey c schemas = none) :
    tgLoop schemas (c :: rest) types = tgLoop schemas rest types := by
  rw [tgLoop]
  split
  · rfl
  · rename_i s p2 hrm
    rw [h] at hrm
    cases hrm

/-- Unfolding equation of the builder loop: pending name found in the pool
(the entry is removed, then converted). -/
theorem tgLoop_cons_found (schemas : List (String × Schema)) (c : String) (rest : List String)
    (types : TypesV2) (s : Schema) (schemas' : List (String × Schema))
    (h : removeFirstKey c schemas = some (s, schemas')) :
    tgLoop schemas (c :: rest) types =
      (match s with
       | .bool _ =>
         let r := tgLoop schemas' rest types
         (r.1, c :: r.2)
       | .obj o =>
         match TypeV2.fromSchema c o with
         | .error _ =>
           let r := tgLoop schemas' rest types
           (r.1, c :: r.2)
         | .ok ty =>
           let newRefs :=
             (TypeV2.referencedComponents ty).filter
               (fun r => r != c && (lookupKV r types).isNone)
           let frontier' := newRefs.foldl (fun f r => insertSorted r f) rest
           let r := tgLoop schemas' frontier' (insertKV c ty types)
           (r.1, c :: r.2)) := by
  rw [tgLoop]
  split
  · rename_i hn
    rw [h] at hn
    cases hn
  · rename_i s2 p2 hrm
    rw [h] at hrm
    simp only [Option.some.injEq, Prod.mk.injEq] at hrm
    obtain ⟨hs, hp⟩ := hrm
    subst hs
    subst hp
    rfl


/-- The builder loop is invariant under permutations of the schema pool (the
pool is only accessed by key), for pools with unique keys. -/
theorem tgLoop_perm_aux :
    ∀ (n : Nat) (p1 p2 : List (String × Schema)), p1.length ≤ n → p1.Perm p2 →
      (p1.map Prod.fst).Nodup →
      ∀ (frontier : List String) (types : TypesV2),
        tgLoop p1 frontier types = tgLoop p2 frontier types := by
  intro n
  induction n using Nat.strong_induction_on with
  | _ n ih =>
    intro p1 p2 hlen hperm hnd frontier
    induction frontier with
    | nil => intro types; rw [tgLoop_nil, tgLoop_nil]
    | cons c rest ihf =>
      intro types
      cases hrm1 : removeFirstKey c p1 with
      | none =>
        have hc1 : c ∉ p1.map Prod.fst := (removeFirstKey_none_iff c p1).mp hrm1
        have hc2 : c ∉ p2.map Prod.fst := fun hm => hc1 ((hperm.map Prod.fst).mem_iff.mpr hm)
        have hrm2 : removeFirstKey c p2 = none := (removeFirstKey_none_iff c p2).mpr hc2
        rw [tgLoop_cons_none p1 c rest types hrm1, tgLoop_cons_none p2 c rest types hrm2]
        exact ihf types
      | some pr =>
        obtain ⟨s, p1'⟩ := pr
        have hmem1 : (c, s) ∈ p1 := removeFirstKey_mem c p1 s p1' hrm1
        have hmem2 : (c, s) ∈ p2 := hperm.mem_iff.mp hmem1
        have hnd2 : (p2.map Prod.fst).Nodup := (hperm.map Prod.fst).nodup_iff.mp hnd
        obtain ⟨p2', hrm2⟩ := removeFirstKey_exists_of_mem c s p2 hnd2 hmem2
        have hperm1 : p1.Perm ((c, s) :: p1') := removeFirstKey_perm c p1 s p1' hrm1
        have hperm2 : p2.Perm ((c, s) :: p2') := removeFirstKey_perm c p2 s p2' hrm2
        have hp12 : p1'.Perm p2' :=
          List.Perm.cons_inv ((hperm1.symm.trans hperm).trans hperm2)
        obtain ⟨hnd1', _, _⟩ := removeFirstKey_some_facts c p1 s p1' hnd hrm1
        have hlt : p1'.length < n :=
          Nat.lt_of_lt_of_le (removeFirstKey_length c p1 s p1' hrm1) hlen
        cases s with
        | bool b =>
          rw [tgLoop_cons_found p1 c rest types (.bool b) p1' hrm1,
            tgLoop_cons_found p2 c rest types (.bool b) p2' hrm2]
          exact congrArg (fun r => (r.1, c :: r.2))
            (ih p1'.length hlt p1' p2' (Nat.le_refl _) hp12 hnd1' rest types)
        | obj o =>
          rw [tgLoop_cons_found p1 c rest types (.obj o) p1' hrm1,
            tgLoop_cons_found p2 c rest types (.obj o) p2' hrm2]
          dsimp only
          cases hconv : TypeV2.fromSchema c o with
          | error e =>
            exact congrArg (fun r => (r.1, c :: r.2))
              (ih p1'.length hlt p1' p2' (Nat.le_refl _) hp12 hnd1' rest types)
          | ok ty =>
            exact congrArg (fun r => (r.1, c :: r.2))
              (ih p1'.length hlt p1' p2' (Nat.le_refl _) hp12 hnd1' _ _)


/-- C6: a pending name absent from the schema pool is skipped with a warning;
in particular seeding the builder with a single absent name returns an empty
`Type` map, and (the embedded builder being a total function) never fails or
crashes the run. -/
theorem C6_missing_name_tolerated : ∀ (schemas : List (String × Schema)) (name : String),
    name ∉ schemas.map Prod.fst → fromReferencedComponents [name] schemas = [] := by
  intro schemas name h
  rw [fromReferencedComponents]
  have hfr : (([name] : List String).foldl (fun f s => insertSorted s f) []) = [name] := rfl
  rw [hfr]
  rw [tgLoop_cons_none _ _ _ _ ((removeFirstKey_none_iff name schemas).mpr h)]
  rw [tgLoop_nil]

/-- C1: the Type Graph Builder terminates on every finite schema pool and
seed set — witnessed by `tgLoop` being accepted as a total function (its
lexicographic measure: pool size, then frontier size) — and, when the pool has
unique keys (as an `IndexMap` does), each reachable schema name is looked up
and removed from the pool at most once: the trace of pool hits has no
duplicates and only mentions pool keys. -/
theorem C1_builder_each_schema_once (schemas : List (String × Schema)) (seeds : List String)
    (hnd : (schemas.map Prod.fst).Nodup) :
    (processedSchemas seeds schemas).Nodup ∧
      ∀ x ∈ processedSchemas seeds schemas, x ∈ schemas.map Prod.fst := by
  rw [processedSchemas]
  exact tgLoop_trace_aux schemas.length schemas (Nat.le_refl _) hnd _ []

/-- C2: the Type Graph Builder is deterministic (it is a pure function, and
it always removes the lexicographically smallest pending name — the head of
the sorted frontier — first): two runs on identical fresh pools and seed sets
give identical key-sorted maps, and the result does not depend on the
iteration order of the input schema map: permuted pools (with unique keys)
produce identical results. -/
theorem C2_builder_pool_order_irrelevant (p1 p2 : List (String × Schema)) (seeds : List String)
    (hperm : p1.Perm p2) (hnd : (p1.map Prod.fst).Nodup) :
    fromReferencedComponents seeds p1 = fromReferencedComponents seeds p2 := by
  rw [fromReferencedComponents, fromReferencedComponents]
  rw [tgLoop_perm_aux p1.length p1 p2 (Nat.le_refl _) hperm hnd _ []]

/-- A `$ref B` property schema. -/
def refBSchema : Schema := .obj { reference := some "#/components/schemas/B" }
/-- A `$ref A` property schema. -/
def refASchema : Schema := .obj { reference := some "#/components/schemas/A" }

/-- Schema `A` of the cyclic witness pool: an object referencing `B`. -/
def cycSchemaA : Schema :=
  .obj { instanceType := some (.single .object),
         object := some { properties := [("b", refBSchema)], required := [] } }

/-- Schema `B` of the cyclic witness pool: an object referencing `A`. -/
def cycSchemaB : Schema :=
  .obj { instanceType := some (.single .object),
         object := some { properties := [("a", refASchema)], required := [] } }

set_option maxRecDepth 8000 in
unseal tgLoop FieldTypeV2.fromSchema FieldTypeV2.fromSchemaObject in
/-- C1 witness: a two-schema pool with a reference cycle (`A` references `B`,
`B` references `A`); the builder terminates and processes each of `A` and `B`
exactly once. -/
theorem C1_witness :
    (([("A", cycSchemaA), ("B", cycSchemaB)].map Prod.fst).Nodup ∧
        (processedSchemas ["A"] [("A", cycSchemaA), ("B", cycSchemaB)]).Nodup) ∧
      processedSchemas ["A"] [("A", cycSchemaA), ("B", cycSchemaB)] = ["A", "B"] :=
  ⟨⟨by decide, (C1_builder_each_schema_once [("A", cycSchemaA), ("B", cycSchemaB)] ["A"] (by decide)).1⟩, by rfl⟩

/-- C2 witness: the same cyclic pool in two different orders produces the
same `Type` map. -/
theorem C2_witness :
    ([("A", cycSchemaA), ("B", cycSchemaB)] : List (String × Schema)).Perm
        [("B", cycSchemaB), ("A", cycSchemaA)] ∧
      fromReferencedComponents ["A"] [("A", cycSchemaA), ("B", cycSchemaB)] =
        fromReferencedComponents ["A"] [("B", cycSchemaB), ("A", cycSchemaA)] :=
  ⟨List.Perm.swap ("B", cycSchemaB) ("A", cycSchemaA) [],
   C2_builder_pool_order_irrelevant [("A", cycSchemaA), ("B", cycSchemaB)] [("B", cycSchemaB), ("A", cycSchemaA)] ["A"]
     (List.Perm.swap ("B", cycSchemaB) ("A", cycSchemaA) []) (by decide)⟩

/-- C6 witness: seeding with the absent name `X` yields the empty map. -/
theorem C6_witness :
    "X" ∉ ([("A", cycSchemaA)].map Prod.fst) ∧
      fromReferencedComponents ["X"] [("A", cycSchemaA)] = [] :=
  ⟨by decide, C6_missing_name_tolerated [("A", cycSchemaA)] "X" (by decide)⟩

end OpenapiCodegen
